import Mathlib

/-!
# Course / enrollment store of `lab-3/index.js`

A shallow embedding of the data-consistency core of `src/lab-3/index.js`:
the two in-memory collections `courses` and `enrollments`, the two edit-mode
variables, the `localStorage` snapshot written by `saveDB`, and the eight
handlers that read or write them.

Modelling conventions.

* JavaScript numbers that serve as ids are integer-valued doubles, written as
  `Int`; `null` and `NaN` are `none`.  The one arithmetic step on them, the
  `+ 1` of `generateId`, is rounded to the nearest double, ties to even
  (`roundToDouble`), so it is exact only up to `2 ^ 53`.  Stored ids that are
  not integers are outside the model, and the spread `Math.max(...ids)` is
  taken to succeed whatever the length of the list.  Truthiness tests of the source
  (`!courseId`, `if (editingEnrollId)`) are kept as truthiness tests: `0` is
  falsy.
* Text is `String`; `.length` counts UTF-16 code units and `.trim()` strips the
  ECMAScript white space and line terminator characters.  Lone surrogates have
  no counterpart in `String`.
* The handlers read their arguments from form fields; here the raw field
  values are parameters (`Number.parseInt` of the select value is passed
  already parsed).  The creation time stamp `new Date().toISOString()` is the
  parameter `now`.
* Each handler returns the state it leaves behind together with the toast it
  shows; rendering is not modelled.
* `localStorage` holds, under each of its two keys, the list last written
  there: `JSON.parse` is taken to give back what `JSON.stringify` was given.
-/

namespace Lab3

/-! ## Text -/

/-- White space and line terminators removed by `String.prototype.trim`. -/
def isJsWhitespace (c : Char) : Bool :=
  let n := c.toNat
  n == 0x09 || n == 0x0A || n == 0x0B || n == 0x0C || n == 0x0D || n == 0x20 ||
  n == 0xA0 || n == 0x1680 || (0x2000 ≤ n && n ≤ 0x200A) || n == 0x2028 ||
  n == 0x2029 || n == 0x202F || n == 0x205F || n == 0x3000 || n == 0xFEFF

/-- The characters of `s.trim()`. -/
def trimChars (cs : List Char) : List Char :=
  ((cs.dropWhile isJsWhitespace).reverse.dropWhile isJsWhitespace).reverse

/-- JavaScript `s.trim()`. -/
def jsTrim (s : String) : String := ⟨trimChars s.data⟩

/-- JavaScript `s.length`: the number of UTF-16 code units. -/
def jsLength (s : String) : Nat :=
  (s.data.map fun c => if c.toNat < 0x10000 then 1 else 2).sum

/-- JavaScript `s.includes("@")`. -/
def includesAt (s : String) : Bool := s.data.contains '@'

/-! ## Records and state -/

/-- A course record `{id, title, desc, createdAt}`. -/
structure Course where
  id : Int
  title : String
  desc : String
  createdAt : String
  deriving DecidableEq, Repr

/-- An enrollment record `{id, courseId, name, email, createdAt}`. -/
structure Enrollment where
  id : Int
  courseId : Int
  name : String
  email : String
  createdAt : String
  deriving DecidableEq, Repr

/-- The two `localStorage` keys; `none` is a key that was never written. -/
structure Storage where
  courses : Option (List Course)
  enrollments : Option (List Enrollment)
  deriving DecidableEq, Repr

/-- The module-level variables of `index.js` and the storage behind them. -/
structure State where
  courses : List Course
  enrollments : List Enrollment
  editingCourseId : Option Int
  editingEnrollId : Option Int
  localStorage : Storage
  deriving DecidableEq, Repr

/-- The message shown by `toast(msg, type)`.  The two info toasts are
`toast(msg + id, "info")`: the text and the number are kept apart, the printed
form of the number is not modelled. -/
inductive Toast where
  | success (msg : String)
  | error (msg : String)
  | info (msg : String) (id : Int)
  deriving DecidableEq, Repr

/-- Source lines 4-9: the collections are read from storage (`|| []` for a
missing key) and both edit modes start as `null`. -/
def loadState (st : Storage) : State :=
  { courses := st.courses.getD []
    enrollments := st.enrollments.getD []
    editingCourseId := none
    editingEnrollId := none
    localStorage := st }

/-! ## Utilities -/

/-- Function `saveDB`: both collections are written to storage. -/
def saveDB (s : State) : State :=
  { s with localStorage := { courses := some s.courses, enrollments := some s.enrollments } }

/-- How many low bits a natural number has beyond the 53 of a double's
significand; the fuel covers every finite double. -/
def excessBits : Nat → Nat → Nat
  | 0, _ => 0
  | fuel + 1, a => if a < 2 ^ 53 then 0 else excessBits fuel (a / 2) + 1

/-- The double nearest to a natural number, ties to the even significand. -/
def roundNat (a : Nat) : Nat :=
  let e := excessBits 1024 a
  let q := a / 2 ^ e
  let r := a % 2 ^ e
  let half := 2 ^ (e - 1)
  (if r < half then q else if half < r then q + 1 else q + q % 2) * 2 ^ e

/-- The double nearest to an integer: the integer itself up to `2 ^ 53` in
absolute value, a rounded value beyond. -/
def roundToDouble (n : Int) : Int :=
  if n.natAbs ≤ 2 ^ 53 then n
  else if 0 ≤ n then (roundNat n.natAbs : Int) else - (roundNat n.natAbs : Int)

/-- Function `generateId` on the ids `arr.map((x) => x.id)`:
`arr.length ? Math.max(...ids) + 1 : 1`, the sum taken in double arithmetic. -/
def generateId (ids : List Int) : Int :=
  match ids with
  | [] => 1
  | x :: xs => roundToDouble (xs.foldl max x + 1)

/-- Every id is a safe integer (`Number.isSafeInteger`): below `2 ^ 53` in
absolute value. -/
def SafeIds (ids : List Int) : Prop := ∀ i ∈ ids, i.natAbs < 2 ^ 53

/-- JavaScript `arr.findIndex(p)`, with `none` for `-1`. -/
def findIndex {α : Type} (p : α → Bool) : List α → Option Nat
  | [] => none
  | x :: xs => if p x then some 0 else (findIndex p xs).map (· + 1)

/-- In-place update `arr[idx] = f(arr[idx])` of one element. -/
def modifyAt {α : Type} (f : α → α) : Nat → List α → List α
  | _, [] => []
  | 0, x :: xs => f x :: xs
  | n + 1, x :: xs => x :: modifyAt f n xs

/-- Truthiness of a parsed number: `NaN` and `0` are falsy. -/
def truthy : Option Int → Bool
  | none => false
  | some k => k != 0

/-! ## Handlers -/

/-- What a handler leaves behind: the state and the toast it shows. -/
structure Result where
  state : State
  toast : Toast
  deriving DecidableEq, Repr

def msgCourseTitle : String := "Course title must be at least 3 characters."
def msgCourseDesc : String := "Course description must be at least 5 characters."
def msgCourseNotFound : String := "Course not found!"
def msgCourseHasEnrollments : String := "Cannot delete course: enrollments exist."
def msgSelectCourse : String := "Please select a course."
def msgStudentName : String := "Student name must be at least 3 characters."
def msgEmail : String := "Enter a valid email address."
def msgDuplicateEmail : String := "This student email already enrolled in this course."
def msgEnrollNotFound : String := "Enrollment not found!"

/-- The `catch` clause of every handler: `toast("❌ " + err.message, "error")`;
the state is whatever the `try` block had reached. -/
def caught (s : State) (msg : String) : Result :=
  ⟨s, .error ("❌ " ++ msg)⟩

/-- Function `resetCourseForm`. -/
def resetCourseForm (s : State) : State :=
  { s with editingCourseId := none }

/-- Function `resetEnrollForm`. -/
def resetEnrollForm (s : State) : State :=
  { s with editingEnrollId := none }

/-- Function `createOrUpdateCourse`, with the two form fields and the clock
as arguments. -/
def createOrUpdateCourse (s : State) (rawTitle rawDesc now : String) : Result :=
  let title := jsTrim rawTitle
  let desc := jsTrim rawDesc
  if title == "" || jsLength title < 3 then caught s msgCourseTitle
  else if desc == "" || jsLength desc < 5 then caught s msgCourseDesc
  else if s.editingCourseId != none &&
      s.courses.any (fun c => some c.id == s.editingCourseId) then
    match findIndex (fun c : Course => some c.id == s.editingCourseId) s.courses with
    | none =>
      -- `courses[-1].title = ...` would raise a TypeError
      caught s "Cannot set properties of undefined (setting 'title')"
    | some idx =>
      let s1 := { s with
        courses := modifyAt (fun c => { c with title := title, desc := desc }) idx s.courses }
      let s2 := { s1 with editingCourseId := none }
      ⟨resetCourseForm (saveDB s2), .success "✅ Course updated successfully"⟩
  else
    let newCourse : Course :=
      { id := generateId (s.courses.map (·.id))
        title := title
        desc := desc
        createdAt := now }
    let s1 := { s with courses := s.courses ++ [newCourse] }
    ⟨resetCourseForm (saveDB s1), .success "✅ Course created successfully"⟩

/-- Function `editCourse`. -/
def editCourse (s : State) (id : Int) : Result :=
  match s.courses.find? (fun c => c.id == id) with
  | none => caught s msgCourseNotFound
  | some _ =>
    ⟨{ s with editingCourseId := some id }, .info "✏️ Editing course ID " id⟩

/-- Function `deleteCourse`. -/
def deleteCourse (s : State) (id : Int) : Result :=
  match s.courses.find? (fun c => c.id == id) with
  | none => caught s msgCourseNotFound
  | some _ =>
    let hasEnrollments := s.enrollments.any (fun e => e.courseId == id)
    if hasEnrollments then caught s msgCourseHasEnrollments
    else
      let s1 := { s with courses := s.courses.filter (fun c => c.id != id) }
      ⟨saveDB s1, .success "🗑️ Course deleted"⟩

/-- Function `createOrUpdateEnrollment`, with the parsed select value, the two
text fields and the clock as arguments. -/
def createOrUpdateEnrollment (s : State) (courseId : Option Int)
    (rawName rawEmail now : String) : Result :=
  let name := jsTrim rawName
  let email := jsTrim rawEmail
  match courseId with
  | none => caught s msgSelectCourse            -- `!NaN`
  | some cid =>
    if cid == 0 then caught s msgSelectCourse   -- `!0`
    else if name == "" || jsLength name < 3 then caught s msgStudentName
    else if !includesAt email then caught s msgEmail
    else
      let existsDup := s.enrollments.any fun e =>
        e.courseId == cid && e.email == email && some e.id != s.editingEnrollId
      if existsDup then caught s msgDuplicateEmail
      else if truthy s.editingEnrollId then
        match findIndex (fun e : Enrollment => some e.id == s.editingEnrollId) s.enrollments with
        | none => caught s msgEnrollNotFound
        | some idx =>
          let s1 := { s with
            enrollments :=
              modifyAt (fun e => { e with courseId := cid, name := name, email := email })
                idx s.enrollments }
          let s2 := { s1 with editingEnrollId := none }
          ⟨resetEnrollForm (saveDB s2), .success "✅ Enrollment updated"⟩
      else
        let newEnroll : Enrollment :=
          { id := generateId (s.enrollments.map (·.id))
            courseId := cid
            name := name
            email := email
            createdAt := now }
        let s1 := { s with enrollments := s.enrollments ++ [newEnroll] }
        ⟨resetEnrollForm (saveDB s1), .success "✅ Student enrolled successfully"⟩

/-- Function `editEnrollment`. -/
def editEnrollment (s : State) (id : Int) : Result :=
  match s.enrollments.find? (fun e => e.id == id) with
  | none => caught s msgEnrollNotFound
  | some _ =>
    ⟨{ s with editingEnrollId := some id }, .info "✏️ Editing enrollment ID " id⟩

/-- Function `deleteEnrollment`. -/
def deleteEnrollment (s : State) (id : Int) : Result :=
  match s.enrollments.find? (fun e => e.id == id) with
  | none => caught s msgEnrollNotFound
  | some _ =>
    let s1 := { s with enrollments := s.enrollments.filter (fun e => e.id != id) }
    ⟨saveDB s1, .success "🗑️ Enrollment deleted"⟩

/-! ## Operations as a transition system -/

/-- One user action: a handler together with the input it reads. -/
inductive Op where
  | createOrUpdateCourse (rawTitle rawDesc now : String)
  | editCourse (id : Int)
  | deleteCourse (id : Int)
  | resetCourseForm
  | createOrUpdateEnrollment (courseId : Option Int) (rawName rawEmail now : String)
  | editEnrollment (id : Int)
  | deleteEnrollment (id : Int)
  | resetEnrollForm
  deriving DecidableEq, Repr

/-- The state after an action. -/
def step (s : State) : Op → State
  | .createOrUpdateCourse t d now => (createOrUpdateCourse s t d now).state
  | .editCourse id => (editCourse s id).state
  | .deleteCourse id => (deleteCourse s id).state
  | .resetCourseForm => resetCourseForm s
  | .createOrUpdateEnrollment c n e now => (createOrUpdateEnrollment s c n e now).state
  | .editEnrollment id => (editEnrollment s id).state
  | .deleteEnrollment id => (deleteEnrollment s id).state
  | .resetEnrollForm => resetEnrollForm s

/-- The state after a sequence of actions. -/
def steps (s : State) (ops : List Op) : State := ops.foldl step s

/-- A handler ended in its `catch` clause. -/
def Result.rejected (r : Result) : Bool :=
  match r.toast with
  | .error _ => true
  | _ => false

/-- The state of a first visit: nothing stored yet. -/
def emptyState : State := loadState ⟨none, none⟩

/-! ## Invariants of the data model -/

/-- Invariant I1: every enrollment's `courseId` is the id of some course. -/
def RefIntegrity (s : State) : Prop :=
  ∀ e ∈ s.enrollments, ∃ c ∈ s.courses, c.id = e.courseId

/-- Invariant I3: no two enrollments share both `courseId` and `email`. -/
def EmailUnique (es : List Enrollment) : Prop :=
  es.Pairwise fun a b => ¬ (a.courseId = b.courseId ∧ a.email = b.email)

/-- No two courses share an id. -/
def CourseIdsUnique (s : State) : Prop := (s.courses.map (·.id)).Nodup

/-- No two enrollments share an id. -/
def EnrollIdsUnique (s : State) : Prop := (s.enrollments.map (·.id)).Nodup

/-! ## Sample states -/

/-- A session in which one course was created. -/
def oneCourse : State :=
  step emptyState (.createOrUpdateCourse "Lean" "Proofs" "t0")

/-- The enrollment appended by a successful create. -/
def newEnrollment (s : State) (cid : Int) (rawName rawEmail now : String) : Enrollment :=
  { id := generateId (s.enrollments.map (·.id))
    courseId := cid
    name := jsTrim rawName
    email := jsTrim rawEmail
    createdAt := now }

/-- The course appended by a successful create. -/
def newCourse (s : State) (rawTitle rawDesc now : String) : Course :=
  { id := generateId (s.courses.map (·.id))
    title := jsTrim rawTitle
    desc := jsTrim rawDesc
    createdAt := now }

/-- A stored snapshot whose only enrollment has id 0, selected for editing. -/
def zeroIdState : State :=
  step (loadState ⟨some [⟨1, "Lean", "Proofs", "t0"⟩], some [⟨0, 1, "Ann", "a@b.com", "t1"⟩]⟩)
    (.editEnrollment 0)

/-- The field update made by the edit branch of `createOrUpdateEnrollment`. -/
def setEnrollFields (cid : Int) (name email : String) (e : Enrollment) : Enrollment :=
  { e with courseId := cid, name := name, email := email }

/-- The field update made by the edit branch of `createOrUpdateCourse`. -/
def setCourseFields (title desc : String) (c : Course) : Course :=
  { c with title := title, desc := desc }

/-- A session with one course and one enrollment in it. -/
def oneEnrollment : State :=
  step oneCourse (.createOrUpdateEnrollment (some 1) "Alice" "a@b.com" "t1")

/-- A session in which two courses were created. -/
def twoCourses : State :=
  steps emptyState [.createOrUpdateCourse "Lean" "Proofs" "t0",
    .createOrUpdateCourse "Coq" "Tactics" "t1"]

/-- Course 1 was selected for editing and then deleted. -/
def staleCourseEdit : State :=
  steps emptyState [.createOrUpdateCourse "Lean" "Proofs" "t0", .editCourse 1, .deleteCourse 1]

/-- Enrollment 2 was selected for editing and then deleted; enrollment 1 stays. -/
def staleEnrollEdit : State :=
  steps oneEnrollment [.createOrUpdateEnrollment (some 1) "Bob" "b@c.com" "t2",
    .editEnrollment 2, .deleteEnrollment 2]

/-- An enrollment in course 7 exists although no course does. -/
def danglingEnrollment : State :=
  step emptyState (.createOrUpdateEnrollment (some 7) "Carol" "c@d.org" "t0")

/-- The test of source line 47 that selects the update branch of
`createOrUpdateCourse`. -/
def courseUpdateMode (s : State) : Bool :=
  s.editingCourseId != none && s.courses.any (fun c => some c.id == s.editingCourseId)

/-- The test of source line 180 that selects the update branch of
`createOrUpdateEnrollment`. -/
def enrollUpdateMode (s : State) : Bool := truthy s.editingEnrollId

/-- A stored snapshot whose only enrollment has an email without "@". -/
def storedNoAt : State :=
  loadState ⟨some [⟨1, "Lean", "Proofs", "t0"⟩], some [⟨1, 1, "Ann", "ann", "t1"⟩]⟩

/-- A stored snapshot whose only enrollment, id 2, has the email "eve". -/
def storedBareEmail : State :=
  loadState ⟨some [⟨1, "Lean", "Proofs", "t0"⟩], some [⟨2, 1, "Eve", "eve", "t1"⟩]⟩

/-- The in-memory collections are what a reload of storage would give. -/
def Synced (s : State) : Prop :=
  (loadState s.localStorage).courses = s.courses ∧
  (loadState s.localStorage).enrollments = s.enrollments

/-- The field constraints of the data model on every stored record. -/
def FieldsValid (s : State) : Prop :=
  (∀ c ∈ s.courses, 0 < c.id ∧ 3 ≤ jsLength c.title ∧ 5 ≤ jsLength c.desc) ∧
  (∀ e ∈ s.enrollments, 0 < e.id ∧ 3 ≤ jsLength e.name ∧ includesAt e.email = true)

/-- A stored snapshot whose only course has the id `2 ^ 53`. -/
def bigCourseId : State :=
  loadState ⟨some [⟨9007199254740992, "Lean", "Proofs", "t0"⟩], some []⟩

/-- A stored snapshot whose only course has the id `2 ^ 54`. -/
def hugeCourseId : State :=
  loadState ⟨some [⟨18014398509481984, "Lean", "Proofs", "t0"⟩], some []⟩

/-- A stored snapshot whose only enrollment has the id `2 ^ 53`. -/
def bigEnrollId : State :=
  loadState ⟨some [⟨1, "Lean", "Proofs", "t0"⟩],
    some [⟨9007199254740992, 1, "Ann", "ann@x.org", "t1"⟩]⟩

/-! ## Auxiliary facts about the list utilities -/

theorem foldl_max_ge_init (xs : List Int) (a : Int) : a ≤ xs.foldl max a := by
  induction xs generalizing a with
  | nil => simp
  | cons y ys ih =>
    simp only [List.foldl_cons]
    exact le_trans (le_max_left a y) (ih (max a y))

theorem foldl_max_ge_mem (xs : List Int) (a i : Int) (h : i ∈ xs) : i ≤ xs.foldl max a := by
  induction xs generalizing a with
  | nil => simp at h
  | cons y ys ih =>
    simp only [List.foldl_cons]
    rcases List.mem_cons.mp h with rfl | h
    · exact le_trans (le_max_right a i) (foldl_max_ge_init ys (max a i))
    · exact ih (max a y) h

theorem foldl_max_mem (xs : List Int) (a : Int) : xs.foldl max a ∈ a :: xs := by
  induction xs generalizing a with
  | nil => simp
  | cons y ys ih =>
    simp only [List.foldl_cons]
    have h := ih (max a y)
    rcases List.mem_cons.mp h with h | h
    · rcases max_choice a y with hm | hm
      · rw [h, hm]; simp
      · rw [h, hm]; simp
    · simp [h]

theorem roundToDouble_exact (n : Int) (h : n.natAbs ≤ 2 ^ 53) : roundToDouble n = n := by
  unfold roundToDouble
  rw [if_pos h]

/-- For safe ids the sum in `generateId` is exact. -/
theorem generateId_cons_safe (x : Int) (xs : List Int) (hs : SafeIds (x :: xs)) :
    generateId (x :: xs) = xs.foldl max x + 1 := by
  have hm := hs _ (foldl_max_mem xs x)
  simp only [generateId]
  apply roundToDouble_exact
  omega

theorem lt_generateId (ids : List Int) (hs : SafeIds ids) (i : Int) (h : i ∈ ids) :
    i < generateId ids := by
  cases ids with
  | nil => simp at h
  | cons x xs =>
    rw [generateId_cons_safe x xs hs]
    rcases List.mem_cons.mp h with rfl | h
    · exact Int.lt_add_one_iff.mpr (foldl_max_ge_init xs i)
    · exact Int.lt_add_one_iff.mpr (foldl_max_ge_mem xs x i h)

theorem generateId_not_mem (ids : List Int) (hs : SafeIds ids) : generateId ids ∉ ids :=
  fun h => lt_irrefl _ (lt_generateId ids hs _ h)

theorem pow_excessBits_le (fuel a : Nat) (ha : 0 < a) : 2 ^ excessBits fuel a ≤ a := by
  induction fuel generalizing a with
  | zero => simpa [excessBits] using ha
  | succ f ih =>
    simp only [excessBits]
    split
    · simpa using ha
    · rename_i hlt
      have h2 : 0 < a / 2 := by
        have : 2 ≤ a := by
          have : (2 : Nat) ≤ 2 ^ 53 := by decide
          omega
        omega
      have := ih (a / 2) h2
      rw [pow_succ]
      omega

theorem roundNat_pos (a : Nat) (ha : 0 < a) : 0 < roundNat a := by
  have hle := pow_excessBits_le 1024 a ha
  have hq : 0 < a / 2 ^ excessBits 1024 a :=
    Nat.div_pos hle (Nat.pos_pow_of_pos _ (by decide))
  unfold roundNat
  simp only []
  apply Nat.mul_pos _ (Nat.pos_pow_of_pos _ (by decide))
  split
  · exact hq
  · split
    · omega
    · omega

theorem roundToDouble_pos (n : Int) (h : 0 < n) : 0 < roundToDouble n := by
  unfold roundToDouble
  split
  · exact h
  · rw [if_pos (le_of_lt h)]
    have : 0 < n.natAbs := Int.natAbs_pos.mpr (ne_of_gt h)
    exact_mod_cast roundNat_pos _ this

theorem map_modifyAt {α β : Type} (g : α → β) (f : α → α) (hf : ∀ a, g (f a) = g a)
    (n : Nat) (l : List α) : (modifyAt f n l).map g = l.map g := by
  induction l generalizing n with
  | nil => simp [modifyAt]
  | cons x xs ih =>
    cases n with
    | zero => simp [modifyAt, hf]
    | succ n => simp [modifyAt, ih]

theorem mem_modifyAt {α : Type} (f : α → α) (n : Nat) (l : List α) (a : α)
    (h : a ∈ modifyAt f n l) : a ∈ l ∨ ∃ b ∈ l, a = f b := by
  induction l generalizing n with
  | nil => simp [modifyAt] at h
  | cons x xs ih =>
    cases n with
    | zero =>
      simp only [modifyAt, List.mem_cons] at h
      rcases h with h | h
      · exact Or.inr ⟨x, by simp, h⟩
      · exact Or.inl (by simp [h])
    | succ n =>
      simp only [modifyAt, List.mem_cons] at h
      rcases h with h | h
      · exact Or.inl (by simp [h])
      · rcases ih n h with h | ⟨b, hb, rfl⟩
        · exact Or.inl (by simp [h])
        · exact Or.inr ⟨b, by simp [hb], rfl⟩

theorem exists_id_iff_mem_map (l : List Course) (i : Int) :
    (∃ c ∈ l, c.id = i) ↔ i ∈ l.map (·.id) := by
  simp [List.mem_map]

/-! ## Shape of the state left by each handler -/

/-- The course handler leaves the enrollments alone and keeps every course id. -/
theorem createOrUpdateCourse_frame (s : State) (t d now : String) :
    (createOrUpdateCourse s t d now).state.enrollments = s.enrollments ∧
    ∀ i ∈ s.courses.map (·.id), i ∈ (createOrUpdateCourse s t d now).state.courses.map (·.id) := by
  unfold createOrUpdateCourse
  simp only []
  split
  · simp [caught]
  · split
    · simp [caught]
    · split
      · split
        · simp [caught]
        · refine ⟨by simp [resetCourseForm, saveDB], ?_⟩
          intro i hi
          simp only [resetCourseForm, saveDB]
          rw [map_modifyAt (fun c : Course => c.id)
            (fun c => { c with title := jsTrim t, desc := jsTrim d }) (fun _ => rfl)]
          exact hi
      · refine ⟨by simp [resetCourseForm, saveDB], ?_⟩
        intro i hi
        simp only [resetCourseForm, saveDB, List.map_append, List.mem_append]
        exact Or.inl hi

/-- A course is deleted only when no enrollment refers to it. -/
theorem deleteCourse_frame (s : State) (id : Int) :
    (deleteCourse s id).state.enrollments = s.enrollments ∧
    ((deleteCourse s id).state.courses = s.courses ∨
      ((∀ e ∈ s.enrollments, e.courseId ≠ id) ∧
        (deleteCourse s id).state.courses = s.courses.filter (fun c => c.id != id))) := by
  unfold deleteCourse
  split
  · simp [caught]
  · simp only []
    split
    · simp [caught]
    · rename_i h
      refine ⟨by simp [saveDB], Or.inr ⟨?_, by simp [saveDB]⟩⟩
      intro e he hid
      apply h
      simp only [List.any_eq_true, beq_iff_eq]
      exact ⟨e, he, hid⟩

/-- The enrollment handler never touches the course list. -/
theorem createOrUpdateEnrollment_courses (s : State) (c : Option Int) (n e now : String) :
    (createOrUpdateEnrollment s c n e now).state.courses = s.courses := by
  unfold createOrUpdateEnrollment
  simp only []
  split
  · simp [caught]
  · split
    · simp [caught]
    · split
      · simp [caught]
      · split
        · simp [caught]
        · split
          · simp [caught]
          · split
            · split
              · simp [caught]
              · simp [resetEnrollForm, saveDB]
            · simp [resetEnrollForm, saveDB]

/-- Every enrollment left by the enrollment handler is an old one or carries
the submitted course id. -/
theorem createOrUpdateEnrollment_mem (s : State) (c : Option Int) (n e now : String)
    (x : Enrollment) (hx : x ∈ (createOrUpdateEnrollment s c n e now).state.enrollments) :
    x ∈ s.enrollments ∨ some x.courseId = c := by
  unfold createOrUpdateEnrollment at hx
  simp only [] at hx
  split at hx
  · exact Or.inl (by simpa [caught] using hx)
  · split at hx
    · exact Or.inl (by simpa [caught] using hx)
    · split at hx
      · exact Or.inl (by simpa [caught] using hx)
      · split at hx
        · exact Or.inl (by simpa [caught] using hx)
        · split at hx
          · exact Or.inl (by simpa [caught] using hx)
          · split at hx
            · split at hx
              · exact Or.inl (by simpa [caught] using hx)
              · simp only [resetEnrollForm, saveDB] at hx
                rcases mem_modifyAt _ _ _ _ hx with h | ⟨b, _, rfl⟩
                · exact Or.inl h
                · exact Or.inr rfl
            · simp only [resetEnrollForm, saveDB, List.mem_append, List.mem_singleton] at hx
              rcases hx with h | rfl
              · exact Or.inl h
              · exact Or.inr rfl

theorem deleteEnrollment_frame (s : State) (id : Int) :
    (deleteEnrollment s id).state.courses = s.courses ∧
    ((deleteEnrollment s id).state.enrollments = s.enrollments ∨
      (deleteEnrollment s id).state.enrollments = s.enrollments.filter (fun e => e.id != id)) := by
  unfold deleteEnrollment
  split
  · simp [caught]
  · simp [saveDB]

theorem editCourse_frame (s : State) (id : Int) :
    (editCourse s id).state.courses = s.courses ∧
    (editCourse s id).state.enrollments = s.enrollments := by
  unfold editCourse
  split <;> simp [caught]

theorem editEnrollment_frame (s : State) (id : Int) :
    (editEnrollment s id).state.courses = s.courses ∧
    (editEnrollment s id).state.enrollments = s.enrollments := by
  unfold editEnrollment
  split <;> simp [caught]

/-- Referential integrity survives when the enrollments stay and no course
id disappears. -/
theorem RefIntegrity.mono {s s' : State} (h : RefIntegrity s)
    (he : s'.enrollments = s.enrollments)
    (hc : ∀ i ∈ s.courses.map (·.id), i ∈ s'.courses.map (·.id)) : RefIntegrity s' := by
  intro e hmem
  rw [he] at hmem
  exact (exists_id_iff_mem_map _ _).mpr (hc _ ((exists_id_iff_mem_map _ _).mp (h e hmem)))

/-! ## Referential integrity (I1) -/

/-- C1, as stated, fails: on the empty first-visit state, which satisfies I1
vacuously, enrolling "Alice" in course 999 is accepted although no course 999
exists, so the resulting state violates I1. -/
theorem refIntegrity_not_invariant :
    ¬ ∀ (s : State) (op : Op), RefIntegrity s → RefIntegrity (step s op) := by
  intro h
  have h0 : RefIntegrity emptyState := by
    intro e he
    simp [emptyState, loadState] at he
  have h1 := h emptyState (.createOrUpdateEnrollment (some 999) "Alice" "a@b.com" "t") h0
  have hs : (step emptyState (.createOrUpdateEnrollment (some 999) "Alice" "a@b.com" "t")).enrollments
      = [⟨1, 999, "Alice", "a@b.com", "t"⟩] := by decide
  have hc : (step emptyState (.createOrUpdateEnrollment (some 999) "Alice" "a@b.com" "t")).courses
      = [] := by decide
  obtain ⟨c, hmem, _⟩ := h1 ⟨1, 999, "Alice", "a@b.com", "t"⟩ (by rw [hs]; simp)
  rw [hc] at hmem
  simp at hmem

/-- C1 (amended): referential integrity is preserved by every operation,
provided that whenever the operation is `createOrUpdateEnrollment` its parsed
course id is the id of some course of the state it runs on. -/
theorem refIntegrity_step (s : State) (op : Op) (h : RefIntegrity s)
    (hop : ∀ c n e now, op = .createOrUpdateEnrollment (some c) n e now →
      ∃ x ∈ s.courses, x.id = c) :
    RefIntegrity (step s op) := by
  cases op with
  | createOrUpdateCourse t d now =>
    exact h.mono (createOrUpdateCourse_frame s t d now).1 (createOrUpdateCourse_frame s t d now).2
  | editCourse id =>
    exact h.mono (editCourse_frame s id).2 (by simp [step, (editCourse_frame s id).1])
  | deleteCourse id =>
    obtain ⟨he, hc | ⟨hno, hc⟩⟩ := deleteCourse_frame s id
    · exact h.mono he (by simp [step, hc])
    · intro e hmem
      simp only [step] at hmem ⊢
      rw [he] at hmem
      obtain ⟨c, hcm, hid⟩ := h e hmem
      refine ⟨c, ?_, hid⟩
      rw [hc, List.mem_filter]
      refine ⟨hcm, ?_⟩
      simp only [bne_iff_ne, ne_eq]
      rw [hid]
      exact hno e hmem
  | resetCourseForm => exact h.mono rfl (fun _ hi => hi)
  | createOrUpdateEnrollment c n e now =>
    intro x hx
    simp only [step] at hx ⊢
    rw [createOrUpdateEnrollment_courses]
    rcases createOrUpdateEnrollment_mem s c n e now x hx with hold | hnew
    · exact h x hold
    · exact hop x.courseId n e now (by rw [hnew])
  | editEnrollment id =>
    exact h.mono (editEnrollment_frame s id).2 (by simp [step, (editEnrollment_frame s id).1])
  | deleteEnrollment id =>
    obtain ⟨hc, he | he⟩ := deleteEnrollment_frame s id
    · exact h.mono he (by simp [step, hc])
    · intro e hmem
      simp only [step] at hmem ⊢
      rw [he] at hmem
      rw [hc]
      exact h e (List.mem_filter.mp hmem).1
  | resetEnrollForm => exact h.mono rfl (fun _ hi => hi)

/-- Witness of C1 (amended): enrolling in the existing course 1. -/
theorem refIntegrity_step_witness :
    RefIntegrity oneCourse ∧
    RefIntegrity (step oneCourse (.createOrUpdateEnrollment (some 1) "Alice" "a@b.com" "t1")) :=
  have h0 : RefIntegrity oneCourse := by
    intro e he
    have : oneCourse.enrollments = [] := by decide
    rw [this] at he
    simp at he
  ⟨h0, refIntegrity_step oneCourse _ h0 (by
    intro c n e now hop
    cases hop
    exact ⟨⟨1, "Lean", "Proofs", "t0"⟩, by decide, rfl⟩)⟩

/-! ## Enrolling in a course that does not exist -/

theorem text_check_false (x : String) (n : Nat) (hn : 0 < n) (h : n ≤ jsLength x) :
    (x == "" || decide (jsLength x < n)) = false := by
  have hne : x ≠ "" := by
    rintro rfl
    have : jsLength "" = 0 := by decide
    omega
  simp [hne, h]

/-- C2, as stated, fails: on the empty first-visit state the create with
courseId 999, name "Alice" and email "a@b.com" is not rejected and adds an
enrollment. -/
theorem create_enrollment_missing_course_accepted :
    ¬ ∀ (s : State) (c : Int) (rawName rawEmail now : String),
      s.editingEnrollId = none → (∀ x ∈ s.courses, x.id ≠ c) →
      3 ≤ jsLength (jsTrim rawName) → includesAt (jsTrim rawEmail) = true →
      (createOrUpdateEnrollment s (some c) rawName rawEmail now).rejected = true ∧
      (createOrUpdateEnrollment s (some c) rawName rawEmail now).state.enrollments
        = s.enrollments := by
  intro h
  have h1 := h emptyState 999 "Alice" "a@b.com" "t" rfl (by decide) (by decide) (by decide)
  revert h1
  decide

/-- C2 (amended): in create mode, a truthy courseId that is the id of no
course, with a valid name and email, is not rejected for the missing course.
The call fails with the duplicate-email error when some enrollment already has
that courseId and trimmed email; otherwise it succeeds and appends one
enrollment carrying that courseId, which then refers to no course. -/
theorem create_enrollment_missing_course (s : State) (c : Int) (rawName rawEmail now : String)
    (hmode : s.editingEnrollId = none) (hc : c ≠ 0) (hmiss : ∀ x ∈ s.courses, x.id ≠ c)
    (hname : 3 ≤ jsLength (jsTrim rawName)) (hemail : includesAt (jsTrim rawEmail) = true) :
    if s.enrollments.any (fun e => e.courseId == c && e.email == jsTrim rawEmail) then
      createOrUpdateEnrollment s (some c) rawName rawEmail now = caught s msgDuplicateEmail
    else
      (createOrUpdateEnrollment s (some c) rawName rawEmail now).toast
        = .success "✅ Student enrolled successfully" ∧
      (createOrUpdateEnrollment s (some c) rawName rawEmail now).state.enrollments
        = s.enrollments ++ [newEnrollment s c rawName rawEmail now] ∧
      ¬ RefIntegrity (createOrUpdateEnrollment s (some c) rawName rawEmail now).state := by
  have hn := text_check_false (jsTrim rawName) 3 (by decide) hname
  have hr : createOrUpdateEnrollment s (some c) rawName rawEmail now =
      if s.enrollments.any (fun e => e.courseId == c && e.email == jsTrim rawEmail) then
        caught s msgDuplicateEmail
      else ⟨resetEnrollForm (saveDB { s with
          enrollments := s.enrollments ++ [newEnrollment s c rawName rawEmail now] }),
        .success "✅ Student enrolled successfully"⟩ := by
    simp only [createOrUpdateEnrollment, hn, hemail, hmode, truthy, newEnrollment]
    simp [hc]
  rw [hr]
  split
  · rfl
  · refine ⟨rfl, rfl, ?_⟩
    intro hri
    obtain ⟨x, hx, hid⟩ := hri (newEnrollment s c rawName rawEmail now)
      (by simp [resetEnrollForm, saveDB])
    exact hmiss x (by simpa [resetEnrollForm, saveDB] using hx) hid

/-- Witness of C2 (amended): courseId 999, "Alice", "a@b.com" on the empty state. -/
theorem create_enrollment_missing_course_witness :
    (createOrUpdateEnrollment emptyState (some 999) "Alice" "a@b.com" "t").toast
        = .success "✅ Student enrolled successfully" ∧
      (createOrUpdateEnrollment emptyState (some 999) "Alice" "a@b.com" "t").state.enrollments
        = [] ++ [newEnrollment emptyState 999 "Alice" "a@b.com" "t"] ∧
      ¬ RefIntegrity (createOrUpdateEnrollment emptyState (some 999) "Alice" "a@b.com" "t").state := by
  have h := create_enrollment_missing_course emptyState 999 "Alice" "a@b.com" "t"
    rfl (by decide) (by decide) (by decide) (by decide)
  simpa [emptyState, loadState] using h

/-! ## Deleting a course -/

theorem find?_id_eq_none (l : List Course) (id : Int) :
    l.find? (fun c => c.id == id) = none ↔ ∀ c ∈ l, c.id ≠ id := by
  simp [List.find?_eq_none]

/-- What `deleteCourse` returns, by cases on the two guards. -/
theorem deleteCourse_eq (s : State) (id : Int) :
    deleteCourse s id =
      if ∀ c ∈ s.courses, c.id ≠ id then caught s msgCourseNotFound
      else if ∃ e ∈ s.enrollments, e.courseId = id then caught s msgCourseHasEnrollments
      else ⟨saveDB { s with courses := s.courses.filter (fun c => c.id != id) },
        .success "🗑️ Course deleted"⟩ := by
  unfold deleteCourse
  split
  · rename_i h
    rw [if_pos ((find?_id_eq_none _ _).mp h)]
  · rename_i c h
    have hne : ¬ ∀ c ∈ s.courses, c.id ≠ id := by
      intro hall
      rw [(find?_id_eq_none _ _).mpr hall] at h
      exact Option.noConfusion h
    rw [if_neg hne]
    simp only [List.any_eq_true, beq_iff_eq]

/-- C3: `deleteCourse s id` fails with "Course not found!" when no course has
the id; when some course has it, it fails with "Cannot delete course:
enrollments exist." exactly when some enrollment has `courseId = id`; and when
some course has it and no enrollment refers to it, it succeeds, the resulting
course list has no course with that id and still has every other course. -/
theorem deleteCourse_outcome (s : State) (id : Int) :
    ((∀ c ∈ s.courses, c.id ≠ id) → deleteCourse s id = caught s msgCourseNotFound) ∧
    ((∃ c ∈ s.courses, c.id = id) →
      ((deleteCourse s id).toast = .error ("❌ " ++ msgCourseHasEnrollments) ↔
        ∃ e ∈ s.enrollments, e.courseId = id)) ∧
    ((∃ c ∈ s.courses, c.id = id) → (∀ e ∈ s.enrollments, e.courseId ≠ id) →
      (deleteCourse s id).rejected = false ∧
      (∀ c ∈ (deleteCourse s id).state.courses, c.id ≠ id) ∧
      (∀ c ∈ s.courses, c.id ≠ id → c ∈ (deleteCourse s id).state.courses)) := by
  rw [deleteCourse_eq]
  refine ⟨fun h => by rw [if_pos h], fun h => ?_, fun h hno => ?_⟩
  · have hne : ¬ ∀ c ∈ s.courses, c.id ≠ id := by
      obtain ⟨c, hc, hid⟩ := h
      exact fun hall => hall c hc hid
    rw [if_neg hne]
    constructor
    · intro ht
      by_contra hno
      rw [if_neg hno] at ht
      exact Toast.noConfusion ht
    · intro he
      rw [if_pos he]
      rfl
  · have hne : ¬ ∀ c ∈ s.courses, c.id ≠ id := by
      obtain ⟨c, hc, hid⟩ := h
      exact fun hall => hall c hc hid
    have hno2 : ¬ ∃ e ∈ s.enrollments, e.courseId = id := by
      rintro ⟨e, he, hid⟩
      exact hno e he hid
    rw [if_neg hne, if_neg hno2]
    refine ⟨rfl, ?_, ?_⟩
    · intro c hc
      simp only [saveDB, List.mem_filter, bne_iff_ne, ne_eq] at hc
      exact hc.2
    · intro c hc hid
      simp only [saveDB, List.mem_filter, bne_iff_ne, ne_eq]
      exact ⟨hc, hid⟩

/-- Witness of C3: course 1 cannot be deleted while Alice is enrolled in it,
and can be deleted when nobody is. -/
theorem deleteCourse_outcome_witness :
    (deleteCourse oneEnrollment 1).toast = .error ("❌ " ++ msgCourseHasEnrollments) ∧
    (deleteCourse oneCourse 1).rejected = false ∧
    deleteCourse emptyState 1 = caught emptyState msgCourseNotFound :=
  ⟨((deleteCourse_outcome oneEnrollment 1).2.1
      ⟨⟨1, "Lean", "Proofs", "t0"⟩, by decide, rfl⟩).mpr
      ⟨⟨1, 1, "Alice", "a@b.com", "t1"⟩, by decide, rfl⟩,
    ((deleteCourse_outcome oneCourse 1).2.2
      ⟨⟨1, "Lean", "Proofs", "t0"⟩, by decide, rfl⟩ (by decide)).1,
    (deleteCourse_outcome emptyState 1).1 (by decide)⟩

/-! ## Per-course email uniqueness (I3) -/

/-- The three ways `createOrUpdateEnrollment` can end: rejected with the state
untouched, an in-place update of the edited record, or an append. -/
theorem createOrUpdateEnrollment_cases (s : State) (c : Option Int) (n e now : String) :
    ((createOrUpdateEnrollment s c n e now).rejected = true ∧
      (createOrUpdateEnrollment s c n e now).state = s) ∨
    (∃ cid k idx, c = some cid ∧ s.editingEnrollId = some k ∧ k ≠ 0 ∧
      findIndex (fun x : Enrollment => some x.id == some k) s.enrollments = some idx ∧
      (∀ x ∈ s.enrollments, x.id ≠ k → ¬ (x.courseId = cid ∧ x.email = jsTrim e)) ∧
      (createOrUpdateEnrollment s c n e now).rejected = false ∧
      (createOrUpdateEnrollment s c n e now).state.enrollments
        = modifyAt (setEnrollFields cid (jsTrim n) (jsTrim e)) idx s.enrollments) ∨
    (∃ cid, c = some cid ∧ truthy s.editingEnrollId = false ∧
      (∀ x ∈ s.enrollments, some x.id ≠ s.editingEnrollId →
        ¬ (x.courseId = cid ∧ x.email = jsTrim e)) ∧
      (createOrUpdateEnrollment s c n e now).rejected = false ∧
      (createOrUpdateEnrollment s c n e now).state.enrollments
        = s.enrollments ++ [newEnrollment s cid n e now]) := by
  unfold createOrUpdateEnrollment
  simp only []
  split
  · exact Or.inl ⟨rfl, rfl⟩
  · rename_i cid
    split
    · exact Or.inl ⟨rfl, rfl⟩
    · split
      · exact Or.inl ⟨rfl, rfl⟩
      · split
        · exact Or.inl ⟨rfl, rfl⟩
        · split
          · exact Or.inl ⟨rfl, rfl⟩
          · rename_i hdup
            have hno : ∀ x ∈ s.enrollments, some x.id ≠ s.editingEnrollId →
                ¬ (x.courseId = cid ∧ x.email = jsTrim e) := by
              intro x hx hid hce
              apply hdup
              simp only [List.any_eq_true, Bool.and_eq_true, beq_iff_eq, bne_iff_ne]
              exact ⟨x, hx, ⟨hce.1, hce.2⟩, hid⟩
            split
            · rename_i htr
              cases hk : s.editingEnrollId with
              | none => simp [hk, truthy] at htr
              | some k =>
                have hk0 : k ≠ 0 := by simpa [hk, truthy] using htr
                split
                · exact Or.inl ⟨rfl, rfl⟩
                · rename_i idx hidx
                  refine Or.inr (Or.inl ⟨cid, k, idx, rfl, rfl, hk0, ?_, ?_, rfl, rfl⟩)
                  · exact hidx
                  · intro x hx hid
                    exact hno x hx (by rw [hk]; simpa using hid)
            · rename_i htr
              exact Or.inr (Or.inr ⟨cid, rfl, by simpa using htr, hno, rfl, rfl⟩)

/-- An in-place update of the record with id `k` keeps I3 when ids are unique
and no other record has the submitted course and email. -/
theorem emailUnique_modifyAt (cid : Int) (name email : String) (k : Int) :
    ∀ (l : List Enrollment) (idx : Nat), (l.map (·.id)).Nodup → EmailUnique l →
      (∀ x ∈ l, x.id ≠ k → ¬ (x.courseId = cid ∧ x.email = email)) →
      findIndex (fun x : Enrollment => some x.id == some k) l = some idx →
      EmailUnique (modifyAt (setEnrollFields cid name email) idx l) := by
  intro l
  induction l with
  | nil => intro idx _ _ _ h; simp [findIndex] at h
  | cons a l ih =>
    intro idx hnd hu hno hfi
    simp only [List.map_cons, List.nodup_cons] at hnd
    have hu' := List.pairwise_cons.mp hu
    simp only [findIndex] at hfi
    split at hfi
    · rename_i ha
      have hak : a.id = k := by simpa using ha
      cases hfi
      simp only [modifyAt]
      refine List.pairwise_cons.mpr ⟨?_, hu'.2⟩
      intro b hb hcontra
      have hbk : b.id ≠ k := by
        intro hbk
        exact hnd.1 (List.mem_map.mpr ⟨b, hb, by rw [hbk, hak]⟩)
      exact hno b (List.mem_cons_of_mem _ hb) hbk
        ⟨hcontra.1.symm, hcontra.2.symm⟩
    · rename_i ha
      have hak : a.id ≠ k := by simpa using ha
      cases hrec : findIndex (fun x : Enrollment => some x.id == some k) l with
      | none => rw [hrec] at hfi; simp at hfi
      | some j =>
        simp only [hrec, Option.map_some', Option.some.injEq] at hfi
        subst hfi
        simp only [modifyAt]
        refine List.pairwise_cons.mpr ⟨?_, ?_⟩
        · intro b hb
          rcases mem_modifyAt _ _ _ _ hb with hb | ⟨b0, _, rfl⟩
          · exact hu'.1 b hb
          · intro hcontra
            exact hno a (List.mem_cons_self _ _) hak hcontra
        · exact ih j hnd.2 hu'.2 (fun x hx => hno x (List.mem_cons_of_mem _ hx)) hrec

/-- The duplicate scan of `createOrUpdateEnrollment` does its work everywhere
but at one input: on a state with unique enrollment ids in which
`editingEnrollId` is not the id 0 of an existing enrollment, every operation
keeps I3. -/
theorem emailUnique_step (s : State) (op : Op) (hid : EnrollIdsUnique s)
    (hu : EmailUnique s.enrollments)
    (hz : ¬ (s.editingEnrollId = some 0 ∧ ∃ x ∈ s.enrollments, x.id = 0)) :
    EmailUnique (step s op).enrollments := by
  cases op with
  | createOrUpdateCourse t d now =>
    simp only [step, (createOrUpdateCourse_frame s t d now).1]; exact hu
  | editCourse id => simp only [step, (editCourse_frame s id).2]; exact hu
  | deleteCourse id => simp only [step, (deleteCourse_frame s id).1]; exact hu
  | resetCourseForm => exact hu
  | createOrUpdateEnrollment c n e now =>
    simp only [step]
    rcases createOrUpdateEnrollment_cases s c n e now with
      ⟨_, hs⟩ | ⟨cid, k, idx, _, _, _, hfi, hno, _, hs⟩ | ⟨cid, _, htr, hno, _, hs⟩
    · rw [hs]; exact hu
    · rw [hs]
      exact emailUnique_modifyAt cid _ _ k s.enrollments idx hid hu hno hfi
    · rw [hs]
      refine List.pairwise_append.mpr ⟨hu, List.pairwise_singleton _ _, ?_⟩
      intro a ha b hb
      rw [List.mem_singleton] at hb
      subst hb
      apply hno a ha
      cases hk : s.editingEnrollId with
      | none => simp
      | some k =>
        have hk0 : k = 0 := by simpa [hk, truthy] using htr
        subst hk0
        intro heq
        exact hz ⟨hk, a, ha, by simpa using heq⟩
  | editEnrollment id => simp only [step, (editEnrollment_frame s id).2]; exact hu
  | deleteEnrollment id =>
    simp only [step]
    rcases (deleteEnrollment_frame s id).2 with hs | hs
    · rw [hs]; exact hu
    · rw [hs]; exact List.Pairwise.filter _ hu
  | resetEnrollForm => exact hu

/-- C4: the code breaks per-course email uniqueness, which its own comment
on the duplicate scan promises. A stored enrollment of id 0 (course 1, email
"a@b.com") is selected by `editEnrollment(0)`; the state has unique ids and
satisfies I3. Submitting course 1, "Bob", "a@b.com" is accepted: the scan
skips the record of id 0, the truthiness test `if (editingEnrollId)` takes the
create branch, and the list ends with two enrollments of course 1 under the
same email. -/
theorem enrolled_twice_with_id_zero :
    zeroIdState.editingEnrollId = some 0 ∧
    EnrollIdsUnique zeroIdState ∧ EmailUnique zeroIdState.enrollments ∧
    (createOrUpdateEnrollment zeroIdState (some 1) "Bob" "a@b.com" "t2").toast
      = .success "✅ Student enrolled successfully" ∧
    (createOrUpdateEnrollment zeroIdState (some 1) "Bob" "a@b.com" "t2").state.enrollments
      = [⟨0, 1, "Ann", "a@b.com", "t1"⟩, ⟨1, 1, "Bob", "a@b.com", "t2"⟩] ∧
    ¬ EmailUnique
      (createOrUpdateEnrollment zeroIdState (some 1) "Bob" "a@b.com" "t2").state.enrollments := by
  have hs : (createOrUpdateEnrollment zeroIdState (some 1) "Bob" "a@b.com" "t2").state.enrollments
      = [⟨0, 1, "Ann", "a@b.com", "t1"⟩, ⟨1, 1, "Bob", "a@b.com", "t2"⟩] := by decide
  refine ⟨by decide, by unfold EnrollIdsUnique; decide, ?_, by decide, hs, ?_⟩
  · have h0 : zeroIdState.enrollments = [⟨0, 1, "Ann", "a@b.com", "t1"⟩] := by decide
    rw [h0]
    exact List.pairwise_singleton _ _
  · rw [hs]
    simp [EmailUnique]

/-! ## Id allocation -/

theorem length_modifyAt {α : Type} (f : α → α) (n : Nat) (l : List α) :
    (modifyAt f n l).length = l.length := by
  induction l generalizing n with
  | nil => simp [modifyAt]
  | cons x xs ih =>
    cases n with
    | zero => simp [modifyAt]
    | succ n => simp [modifyAt, ih]

/-- The three ways `createOrUpdateCourse` can end: rejected with the state
untouched, an in-place update of the edited course, or an append. -/
theorem createOrUpdateCourse_cases (s : State) (t d now : String) :
    ((createOrUpdateCourse s t d now).rejected = true ∧
      (createOrUpdateCourse s t d now).state = s) ∨
    (∃ k idx, s.editingCourseId = some k ∧
      findIndex (fun x : Course => some x.id == some k) s.courses = some idx ∧
      (createOrUpdateCourse s t d now).rejected = false ∧
      (createOrUpdateCourse s t d now).state.courses
        = modifyAt (setCourseFields (jsTrim t) (jsTrim d)) idx s.courses) ∨
    ((createOrUpdateCourse s t d now).rejected = false ∧
      (createOrUpdateCourse s t d now).state.courses = s.courses ++ [newCourse s t d now]) := by
  unfold createOrUpdateCourse
  simp only []
  split
  · exact Or.inl ⟨rfl, rfl⟩
  · split
    · exact Or.inl ⟨rfl, rfl⟩
    · split
      · rename_i hed
        cases hk : s.editingCourseId with
        | none => simp [hk] at hed
        | some k =>
          split
          · exact Or.inl ⟨rfl, rfl⟩
          · rename_i idx hidx
            exact Or.inr (Or.inl ⟨k, idx, rfl, hidx, rfl, rfl⟩)
      · exact Or.inr (Or.inr ⟨rfl, rfl⟩)

/-- C5, as stated, fails twice over: after creating courses 1 and 2 in a
fresh session and deleting course 2, the next course created gets id 2 again;
and on a stored course of id `2 ^ 54` the sum `max + 1` rounds back to
`2 ^ 54`, so the new id is not greater than the id present. -/
theorem deleted_highest_id_reused :
    (¬ ∀ (s : State) (id : Int) (t d now : String),
      (∃ c ∈ s.courses, c.id = id) → (∀ c ∈ s.courses, c.id ≤ id) →
      (deleteCourse s id).rejected = false →
      (createOrUpdateCourse (deleteCourse s id).state t d now).rejected = false →
      ∀ c ∈ (createOrUpdateCourse (deleteCourse s id).state t d now).state.courses,
        c ∉ (deleteCourse s id).state.courses → id < c.id) ∧
    (¬ ∀ (s : State) (t d now : String) (r : Course),
      (createOrUpdateCourse s t d now).state.courses = s.courses ++ [r] →
      ∀ x ∈ s.courses, x.id < r.id) := by
  constructor
  · intro h
    have h1 := h twoCourses 2 "Logic" "Sets and types" "t2"
      ⟨⟨2, "Coq", "Tactics", "t1"⟩, by decide, rfl⟩ (by decide) (by decide) (by decide)
      ⟨2, "Logic", "Sets and types", "t2"⟩ (by decide) (by decide)
    exact absurd h1 (by decide)
  · intro h
    have h1 := h hugeCourseId "Logic" "Sets and types" "t2"
      ⟨18014398509481984, "Logic", "Sets and types", "t2"⟩ (by decide)
      ⟨18014398509481984, "Lean", "Proofs", "t0"⟩ (by decide)
    exact absurd h1 (by decide)

/-- C5 (amended): the id given to a newly created record is `generateId` of
the list before the create, and when every id present is a safe integer it is
strictly greater than every id present in its collection at that time. -/
theorem created_id_exceeds_present (s : State) :
    (∀ (t d now : String) (r : Course),
      (createOrUpdateCourse s t d now).state.courses = s.courses ++ [r] →
      r.id = generateId (s.courses.map (·.id)) ∧
      (SafeIds (s.courses.map (·.id)) → ∀ x ∈ s.courses, x.id < r.id)) ∧
    (∀ (c : Option Int) (n e now : String) (r : Enrollment),
      (createOrUpdateEnrollment s c n e now).state.enrollments = s.enrollments ++ [r] →
      r.id = generateId (s.enrollments.map (·.id)) ∧
      (SafeIds (s.enrollments.map (·.id)) → ∀ x ∈ s.enrollments, x.id < r.id)) := by
  constructor
  · intro t d now r hr
    have hid : r.id = generateId (s.courses.map (·.id)) := by
      rcases createOrUpdateCourse_cases s t d now with ⟨_, hs⟩ | ⟨k, idx, _, _, _, hs⟩ | ⟨_, hs⟩
      · rw [hs] at hr
        have := congrArg List.length hr
        simp at this
      · rw [hs] at hr
        have := congrArg List.length hr
        simp [length_modifyAt] at this
      · rw [hs] at hr
        have := List.append_cancel_left hr
        simp only [List.cons.injEq, and_true] at this
        rw [← this]
        rfl
    refine ⟨hid, fun hsafe x hx => ?_⟩
    rw [hid]
    exact lt_generateId _ hsafe _ (List.mem_map.mpr ⟨x, hx, rfl⟩)
  · intro c n e now r hr
    have hid : r.id = generateId (s.enrollments.map (·.id)) := by
      rcases createOrUpdateEnrollment_cases s c n e now with
        ⟨_, hs⟩ | ⟨cid, k, idx, _, _, _, _, _, _, hs⟩ | ⟨cid, _, _, _, _, hs⟩
      · rw [hs] at hr
        have := congrArg List.length hr
        simp at this
      · rw [hs] at hr
        have := congrArg List.length hr
        simp [length_modifyAt] at this
      · rw [hs] at hr
        have := List.append_cancel_left hr
        simp only [List.cons.injEq, and_true] at this
        rw [← this]
        rfl
    refine ⟨hid, fun hsafe x hx => ?_⟩
    rw [hid]
    exact lt_generateId _ hsafe _ (List.mem_map.mpr ⟨x, hx, rfl⟩)

/-- Witness of C5 (amended): the third course of a session gets id 3. -/
theorem created_id_exceeds_present_witness :
    (⟨3, "Logic", "Sets and types", "t2"⟩ : Course).id
        = generateId (twoCourses.courses.map (·.id)) ∧
      ∀ x ∈ twoCourses.courses, x.id < (⟨3, "Logic", "Sets and types", "t2"⟩ : Course).id :=
  have h := (created_id_exceeds_present twoCourses).1 "Logic" "Sets and types" "t2"
    ⟨3, "Logic", "Sets and types", "t2"⟩ (by decide)
  ⟨h.1, h.2 (by unfold SafeIds; decide)⟩

/-! ## Id uniqueness -/

theorem nodup_map_append_generateId {α : Type} (g : α → Int) (l : List α) (a : α)
    (ha : g a = generateId (l.map g)) (hs : SafeIds (l.map g)) (h : (l.map g).Nodup) :
    ((l ++ [a]).map g).Nodup := by
  rw [List.map_append, List.nodup_append]
  refine ⟨h, by simp, ?_⟩
  intro i hi hi'
  simp only [List.map_cons, List.map_nil, List.mem_singleton] at hi'
  rw [hi', ha] at hi
  exact generateId_not_mem _ hs hi

theorem nodup_map_filter {α : Type} (g : α → Int) (p : α → Bool) (l : List α)
    (h : (l.map g).Nodup) : ((l.filter p).map g).Nodup :=
  h.sublist ((List.filter_sublist l).map g)

/-- C6, as stated, fails: the stored course has id `2 ^ 53`; a create gives
the new course `generateId = 2 ^ 53` again, because `2 ^ 53 + 1` rounds to
`2 ^ 53` as a double, and the course list ends with two courses of one id. -/
theorem big_id_duplicated :
    ¬ ∀ (s : State) (op : Op), CourseIdsUnique s → EnrollIdsUnique s →
      CourseIdsUnique (step s op) ∧ EnrollIdsUnique (step s op) := by
  intro h
  have h1 := (h bigCourseId (.createOrUpdateCourse "Logic" "Sets and types" "t1")
    (by unfold CourseIdsUnique; decide) (by unfold EnrollIdsUnique; decide)).1
  have hs : (step bigCourseId (.createOrUpdateCourse "Logic" "Sets and types" "t1")).courses.map
      (·.id) = [9007199254740992, 9007199254740992] := by decide
  unfold CourseIdsUnique at h1
  rw [hs] at h1
  exact absurd h1 (by decide)

/-- C6 (amended): from a state in which course ids are pairwise distinct,
enrollment ids are pairwise distinct and every id is a safe integer, every
operation leaves course ids and enrollment ids pairwise distinct; `generateId`
returns 1 for an empty list and, for safe ids, the maximum existing id plus 1,
which is the id of no existing record. -/
theorem ids_unique_step (s : State) (op : Op) (hc : CourseIdsUnique s)
    (he : EnrollIdsUnique s) (hsc : SafeIds (s.courses.map (·.id)))
    (hse : SafeIds (s.enrollments.map (·.id))) :
    CourseIdsUnique (step s op) ∧ EnrollIdsUnique (step s op) ∧
    generateId [] = 1 ∧
    (∀ (x : Int) (xs : List Int), SafeIds (x :: xs) → ∃ m ∈ x :: xs,
      (∀ i ∈ x :: xs, i ≤ m) ∧ generateId (x :: xs) = m + 1) ∧
    (∀ ids : List Int, SafeIds ids → generateId ids ∉ ids) := by
  refine ⟨?_, ?_, rfl, ?_, generateId_not_mem⟩
  · unfold CourseIdsUnique at hc ⊢
    cases op with
    | createOrUpdateCourse t d now =>
      simp only [step]
      rcases createOrUpdateCourse_cases s t d now with ⟨_, hs⟩ | ⟨k, idx, _, _, _, hs⟩ | ⟨_, hs⟩
      · rw [hs]; exact hc
      · rw [hs, map_modifyAt (fun c : Course => c.id)
          (setCourseFields (jsTrim t) (jsTrim d)) (fun _ => rfl)]
        exact hc
      · rw [hs]; exact nodup_map_append_generateId _ _ _ rfl hsc hc
    | editCourse id => simp only [step, (editCourse_frame s id).1]; exact hc
    | deleteCourse id =>
      simp only [step]
      rcases (deleteCourse_frame s id).2 with hs | ⟨_, hs⟩
      · rw [hs]; exact hc
      · rw [hs]; exact nodup_map_filter _ _ _ hc
    | resetCourseForm => exact hc
    | createOrUpdateEnrollment c n e now =>
      simp only [step, createOrUpdateEnrollment_courses]; exact hc
    | editEnrollment id => simp only [step, (editEnrollment_frame s id).1]; exact hc
    | deleteEnrollment id => simp only [step, (deleteEnrollment_frame s id).1]; exact hc
    | resetEnrollForm => exact hc
  · unfold EnrollIdsUnique at he ⊢
    cases op with
    | createOrUpdateCourse t d now =>
      simp only [step, (createOrUpdateCourse_frame s t d now).1]; exact he
    | editCourse id => simp only [step, (editCourse_frame s id).2]; exact he
    | deleteCourse id => simp only [step, (deleteCourse_frame s id).1]; exact he
    | resetCourseForm => exact he
    | createOrUpdateEnrollment c n e now =>
      simp only [step]
      rcases createOrUpdateEnrollment_cases s c n e now with
        ⟨_, hs⟩ | ⟨cid, k, idx, _, _, _, _, _, _, hs⟩ | ⟨cid, _, _, _, _, hs⟩
      · rw [hs]; exact he
      · rw [hs, map_modifyAt (fun x : Enrollment => x.id)
          (setEnrollFields cid (jsTrim n) (jsTrim e)) (fun _ => rfl)]
        exact he
      · rw [hs]; exact nodup_map_append_generateId _ _ _ rfl hse he
    | editEnrollment id => simp only [step, (editEnrollment_frame s id).2]; exact he
    | deleteEnrollment id =>
      simp only [step]
      rcases (deleteEnrollment_frame s id).2 with hs | hs
      · rw [hs]; exact he
      · rw [hs]; exact nodup_map_filter _ _ _ he
    | resetEnrollForm => exact he
  · intro x xs hsafe
    refine ⟨xs.foldl max x, foldl_max_mem xs x, ?_, generateId_cons_safe x xs hsafe⟩
    intro i hi
    rcases List.mem_cons.mp hi with rfl | hi
    · exact foldl_max_ge_init xs i
    · exact foldl_max_ge_mem xs x i hi

/-- Witness of C6: a third course is created after two. -/
theorem ids_unique_step_witness :
    CourseIdsUnique twoCourses ∧ EnrollIdsUnique twoCourses ∧
    SafeIds (twoCourses.courses.map (·.id)) ∧ SafeIds (twoCourses.enrollments.map (·.id)) ∧
    CourseIdsUnique (step twoCourses (.createOrUpdateCourse "Logic" "Sets and types" "t2")) ∧
    EnrollIdsUnique (step twoCourses (.createOrUpdateCourse "Logic" "Sets and types" "t2")) :=
  have h1 : CourseIdsUnique twoCourses := by unfold CourseIdsUnique; decide
  have h2 : EnrollIdsUnique twoCourses := by unfold EnrollIdsUnique; decide
  have h3 : SafeIds (twoCourses.courses.map (·.id)) := by unfold SafeIds; decide
  have h4 : SafeIds (twoCourses.enrollments.map (·.id)) := by unfold SafeIds; decide
  have h := ids_unique_step twoCourses (.createOrUpdateCourse "Logic" "Sets and types" "t2")
    h1 h2 h3 h4
  ⟨h1, h2, h3, h4, h.1, h.2.1⟩

/-! ## Rejected operations -/

theorem deleteEnrollment_rejected (s : State) (id : Int)
    (h : (deleteEnrollment s id).rejected = true) : (deleteEnrollment s id).state = s := by
  unfold deleteEnrollment at h ⊢
  split
  · rfl
  · rename_i heq
    rw [heq] at h
    simp [Result.rejected] at h

theorem deleteCourse_rejected (s : State) (id : Int)
    (h : (deleteCourse s id).rejected = true) : (deleteCourse s id).state = s := by
  rw [deleteCourse_eq] at h ⊢
  split
  · rfl
  · rename_i h1
    rw [if_neg h1] at h
    split
    · rfl
    · rename_i h2
      rw [if_neg h2] at h
      simp [Result.rejected] at h

/-- C7: whenever `createOrUpdateCourse`, `deleteCourse`,
`createOrUpdateEnrollment` or `deleteEnrollment` ends in its error branch, the
course list, the enrollment list and the stored snapshot are those from before
the call. -/
theorem rejected_changes_nothing (s : State) :
    (∀ t d now, (createOrUpdateCourse s t d now).rejected = true →
      (createOrUpdateCourse s t d now).state.courses = s.courses ∧
      (createOrUpdateCourse s t d now).state.enrollments = s.enrollments ∧
      (createOrUpdateCourse s t d now).state.localStorage = s.localStorage) ∧
    (∀ id, (deleteCourse s id).rejected = true →
      (deleteCourse s id).state.courses = s.courses ∧
      (deleteCourse s id).state.enrollments = s.enrollments ∧
      (deleteCourse s id).state.localStorage = s.localStorage) ∧
    (∀ c n e now, (createOrUpdateEnrollment s c n e now).rejected = true →
      (createOrUpdateEnrollment s c n e now).state.courses = s.courses ∧
      (createOrUpdateEnrollment s c n e now).state.enrollments = s.enrollments ∧
      (createOrUpdateEnrollment s c n e now).state.localStorage = s.localStorage) ∧
    (∀ id, (deleteEnrollment s id).rejected = true →
      (deleteEnrollment s id).state.courses = s.courses ∧
      (deleteEnrollment s id).state.enrollments = s.enrollments ∧
      (deleteEnrollment s id).state.localStorage = s.localStorage) := by
  refine ⟨fun t d now h => ?_, fun id h => ?_, fun c n e now h => ?_, fun id h => ?_⟩
  · rcases createOrUpdateCourse_cases s t d now with ⟨_, hs⟩ | ⟨_, _, _, _, hr, _⟩ | ⟨hr, _⟩
    · rw [hs]; exact ⟨rfl, rfl, rfl⟩
    · rw [hr] at h; exact Bool.noConfusion h
    · rw [hr] at h; exact Bool.noConfusion h
  · rw [deleteCourse_rejected s id h]; exact ⟨rfl, rfl, rfl⟩
  · rcases createOrUpdateEnrollment_cases s c n e now with
      ⟨_, hs⟩ | ⟨_, _, _, _, _, _, _, _, hr, _⟩ | ⟨_, _, _, _, hr, _⟩
    · rw [hs]; exact ⟨rfl, rfl, rfl⟩
    · rw [hr] at h; exact Bool.noConfusion h
    · rw [hr] at h; exact Bool.noConfusion h
  · rw [deleteEnrollment_rejected s id h]; exact ⟨rfl, rfl, rfl⟩

/-- Witness of C7: the two-letter title "ab" is rejected and nothing changes. -/
theorem rejected_changes_nothing_witness :
    (createOrUpdateCourse oneCourse "ab" "hello" "t1").rejected = true ∧
    (createOrUpdateCourse oneCourse "ab" "hello" "t1").state.courses = oneCourse.courses ∧
    (createOrUpdateCourse oneCourse "ab" "hello" "t1").state.enrollments
      = oneCourse.enrollments ∧
    (createOrUpdateCourse oneCourse "ab" "hello" "t1").state.localStorage
      = oneCourse.localStorage :=
  ⟨by decide, (rejected_changes_nothing oneCourse).1 "ab" "hello" "t1" (by decide)⟩

/-! ## Updating a record that is gone -/

theorem findIndex_eq_none {α : Type} (p : α → Bool) (l : List α)
    (h : ∀ a ∈ l, p a = false) : findIndex p l = none := by
  induction l with
  | nil => rfl
  | cons x xs ih =>
    have hx : p x = false := h x (List.mem_cons_self _ _)
    simp [findIndex, hx, ih (fun a ha => h a (List.mem_cons_of_mem _ ha))]

theorem any_congr_mem {α : Type} (p q : α → Bool) (l : List α)
    (h : ∀ a ∈ l, p a = q a) : l.any p = l.any q := by
  induction l with
  | nil => rfl
  | cons x xs ih =>
    simp only [List.any_cons]
    rw [h x (List.mem_cons_self _ _), ih (fun a ha => h a (List.mem_cons_of_mem _ ha))]

/-- C8, as stated, fails: with course 1 selected for editing and then deleted,
submitting a valid title and description is accepted and adds a course. -/
theorem stale_course_update_creates :
    ¬ ∀ (s : State) (k : Int) (t d now : String),
      s.editingCourseId = some k → (∀ c ∈ s.courses, c.id ≠ k) →
      3 ≤ jsLength (jsTrim t) → 5 ≤ jsLength (jsTrim d) →
      (createOrUpdateCourse s t d now).rejected = true ∧
      (createOrUpdateCourse s t d now).state.courses = s.courses := by
  intro h
  have h1 := h staleCourseEdit 1 "Logic" "Sets and types" "t1"
    (by decide) (by decide) (by decide) (by decide)
  revert h1
  decide

/-- C8 (amended): when `editingCourseId` is an id that no course has, a
submission with a valid title and description takes the create branch: it
succeeds, appends one course with a fresh id and the trimmed fields, and
resets `editingCourseId` to null. -/
theorem stale_course_update (s : State) (k : Int) (t d now : String)
    (hk : s.editingCourseId = some k) (hmiss : ∀ c ∈ s.courses, c.id ≠ k)
    (ht : 3 ≤ jsLength (jsTrim t)) (hd : 5 ≤ jsLength (jsTrim d)) :
    (createOrUpdateCourse s t d now).toast = .success "✅ Course created successfully" ∧
    (createOrUpdateCourse s t d now).state.courses = s.courses ++ [newCourse s t d now] ∧
    (createOrUpdateCourse s t d now).state.editingCourseId = none := by
  have h1 := text_check_false (jsTrim t) 3 (by decide) ht
  have h2 := text_check_false (jsTrim d) 5 (by decide) hd
  have h3 : (s.courses.any fun c => some c.id == s.editingCourseId) = false := by
    rw [hk, List.any_eq_false]
    intro c hc
    simpa using hmiss c hc
  simp only [createOrUpdateCourse, h1, h2, h3, Bool.and_false]
  exact ⟨rfl, rfl, rfl⟩

/-- Witness of C8 (amended): the stale edit of the deleted course 1. -/
theorem stale_course_update_witness :
    staleCourseEdit.editingCourseId = some 1 ∧ staleCourseEdit.courses = [] ∧
    (createOrUpdateCourse staleCourseEdit "Logic" "Sets and types" "t1").state.courses
      = staleCourseEdit.courses ++ [newCourse staleCourseEdit "Logic" "Sets and types" "t1"] :=
  ⟨by decide, by decide,
    (stale_course_update staleCourseEdit 1 "Logic" "Sets and types" "t1"
      (by decide) (by decide) (by decide) (by decide)).2.1⟩

/-- C9, as stated, fails: with the deleted enrollment 2 still selected for
editing, submitting the course and email of enrollment 1 fails with the
duplicate-email error, not with "Enrollment not found!". -/
theorem stale_enrollment_update_conflict :
    ¬ ∀ (s : State) (k c : Int) (n e now : String),
      s.editingEnrollId = some k → (∀ x ∈ s.enrollments, x.id ≠ k) → c ≠ 0 →
      3 ≤ jsLength (jsTrim n) → includesAt (jsTrim e) = true →
      (createOrUpdateEnrollment s (some c) n e now).toast = .error ("❌ " ++ msgEnrollNotFound) ∧
      (createOrUpdateEnrollment s (some c) n e now).state.enrollments = s.enrollments ∧
      (createOrUpdateEnrollment s (some c) n e now).state.editingEnrollId
        = s.editingEnrollId := by
  intro h
  have h1 := h staleEnrollEdit 2 1 "Bobby" "a@b.com" "t3"
    (by decide) (by decide) (by decide) (by decide) (by decide)
  have h2 : (createOrUpdateEnrollment staleEnrollEdit (some 1) "Bobby" "a@b.com" "t3").toast
      = .error ("❌ " ++ msgDuplicateEmail) := by decide
  rw [h2] at h1
  exact absurd h1.1 (by decide)

/-- C9 (amended): when `editingEnrollId` is a non-zero id that no enrollment
has and the input is structurally valid, the call is rejected and leaves the
state, in particular the enrollment list and `editingEnrollId`, unchanged; the
error is the duplicate-email error when some enrollment already has the
submitted course and trimmed email, and "Enrollment not found!" otherwise. -/
theorem stale_enrollment_update (s : State) (k c : Int) (n e now : String)
    (hk : s.editingEnrollId = some k) (hk0 : k ≠ 0)
    (hmiss : ∀ x ∈ s.enrollments, x.id ≠ k) (hc : c ≠ 0)
    (hn : 3 ≤ jsLength (jsTrim n)) (he : includesAt (jsTrim e) = true) :
    createOrUpdateEnrollment s (some c) n e now =
      caught s (if s.enrollments.any (fun x => x.courseId == c && x.email == jsTrim e)
        then msgDuplicateEmail else msgEnrollNotFound) := by
  have h1 := text_check_false (jsTrim n) 3 (by decide) hn
  have h2 : findIndex (fun x : Enrollment => some x.id == s.editingEnrollId) s.enrollments
      = none := by
    apply findIndex_eq_none
    intro x hx
    rw [hk]
    simpa using hmiss x hx
  have h3 : (s.enrollments.any fun x =>
      x.courseId == c && x.email == jsTrim e && some x.id != s.editingEnrollId)
      = s.enrollments.any (fun x => x.courseId == c && x.email == jsTrim e) := by
    apply any_congr_mem
    intro x hx
    have : (some x.id != s.editingEnrollId) = true := by
      rw [hk]
      simpa using hmiss x hx
    rw [this, Bool.and_true]
  simp only [createOrUpdateEnrollment, h1, he, h3, h2]
  simp only [hk, truthy]
  simp [hc, hk0]
  split <;> rfl

/-- Witness of C9 (amended): the stale edit of the deleted enrollment 2 with
a fresh email. -/
theorem stale_enrollment_update_witness :
    staleEnrollEdit.editingEnrollId = some 2 ∧
    createOrUpdateEnrollment staleEnrollEdit (some 1) "Bobby" "bobby@c.com" "t3"
      = caught staleEnrollEdit msgEnrollNotFound := by
  have h := stale_enrollment_update staleEnrollEdit 2 1 "Bobby" "bobby@c.com" "t3"
    (by decide) (by decide) (by decide) (by decide) (by decide) (by decide)
  exact ⟨by decide, by rw [h]; decide⟩

/-! ## Order of the enrollment checks -/

/-- C10, as stated, fails: the duplicate-email error surfaces for course 7,
which is the id of no course, so it does not wait for a referential check. -/
theorem conflict_without_course :
    ¬ ∀ (s : State) (c : Option Int) (n e now : String),
      (createOrUpdateEnrollment s c n e now).toast = .error ("❌ " ++ msgDuplicateEmail) →
      (truthy c = true ∧ 3 ≤ jsLength (jsTrim n) ∧ includesAt (jsTrim e) = true) ∧
      ∃ x ∈ s.courses, some x.id = c := by
  intro h
  obtain ⟨_, x, hx, _⟩ := h danglingEnrollment (some 7) "Dave" "c@d.org" "t1" (by decide)
  have hc : danglingEnrollment.courses = [] := by decide
  rw [hc] at hx
  simp at hx

/-- C10 (amended): the structural checks come first, in the order courseId,
name, email, whatever the collections hold; there is no check that the course
exists; and when the structural checks pass, the duplicate-email error surfaces
exactly when an enrollment other than the one being edited has the submitted
courseId and trimmed email, whether or not that course exists. -/
theorem enrollment_check_order (s : State) (c : Option Int) (n e now : String) :
    (truthy c = false → createOrUpdateEnrollment s c n e now = caught s msgSelectCourse) ∧
    (truthy c = true → jsLength (jsTrim n) < 3 →
      createOrUpdateEnrollment s c n e now = caught s msgStudentName) ∧
    (truthy c = true → 3 ≤ jsLength (jsTrim n) → includesAt (jsTrim e) = false →
      createOrUpdateEnrollment s c n e now = caught s msgEmail) ∧
    (truthy c = true → 3 ≤ jsLength (jsTrim n) → includesAt (jsTrim e) = true →
      ((createOrUpdateEnrollment s c n e now).toast = .error ("❌ " ++ msgDuplicateEmail) ↔
        ∃ x ∈ s.enrollments, some x.courseId = c ∧ x.email = jsTrim e ∧
          some x.id ≠ s.editingEnrollId)) := by
  cases c with
  | none =>
    refine ⟨fun _ => rfl, fun h => ?_, fun h => ?_, fun h => ?_⟩ <;> simp [truthy] at h
  | some cid =>
    by_cases hc : cid = 0
    · subst hc
      refine ⟨fun _ => ?_, fun h => ?_, fun h => ?_, fun h => ?_⟩
      · simp [createOrUpdateEnrollment]
      all_goals simp [truthy] at h
    · refine ⟨fun h => ?_, fun _ hn => ?_, fun _ hn he => ?_, fun _ hn he => ?_⟩
      · simp [truthy, hc] at h
      · simp [createOrUpdateEnrollment, hc, hn]
      · have h1 := text_check_false (jsTrim n) 3 (by decide) hn
        simp only [createOrUpdateEnrollment, h1, he]
        simp [hc]
      · have h1 := text_check_false (jsTrim n) 3 (by decide) hn
        have hiff : (s.enrollments.any fun x =>
            x.courseId == cid && x.email == jsTrim e && some x.id != s.editingEnrollId) = true ↔
            ∃ x ∈ s.enrollments, some x.courseId = some cid ∧ x.email = jsTrim e ∧
              some x.id ≠ s.editingEnrollId := by
          simp only [List.any_eq_true, Bool.and_eq_true, beq_iff_eq, bne_iff_ne,
            Option.some.injEq, and_assoc]
        rw [← hiff]
        cases hany : (s.enrollments.any fun x =>
            x.courseId == cid && x.email == jsTrim e && some x.id != s.editingEnrollId) with
        | true =>
          simp only [createOrUpdateEnrollment, h1, he, hany]
          simp [hc, caught]
        | false =>
          simp only [createOrUpdateEnrollment, h1, he, hany]
          simp only [iff_false, Bool.false_eq_true]
          simp only [hc, beq_iff_eq, Bool.not_true, if_false, Bool.false_eq_true]
          intro ht
          split at ht
          · split at ht
            · injection ht with ht
              exact absurd ht (by decide)
            · exact Toast.noConfusion ht
          · exact Toast.noConfusion ht

/-- Witness of C10 (amended): a two-letter name is reported although the same
course and email are already enrolled. -/
theorem enrollment_check_order_witness :
    createOrUpdateEnrollment oneEnrollment (some 1) " Al " "a@b.com" "t2"
      = caught oneEnrollment msgStudentName :=
  (enrollment_check_order oneEnrollment (some 1) " Al " "a@b.com" "t2").2.1
    (by decide) (by decide)

/-! ## Validation of a new course -/

theorem text_check_true (x : String) (n : Nat) (h : jsLength x < n) :
    (x == "" || decide (jsLength x < n)) = true := by
  simp [h]

/-- What `createOrUpdateCourse` returns when `editingCourseId` is null. -/
theorem createOrUpdateCourse_create_eq (s : State) (t d now : String)
    (hmode : s.editingCourseId = none) :
    createOrUpdateCourse s t d now =
      if jsLength (jsTrim t) < 3 then caught s msgCourseTitle
      else if jsLength (jsTrim d) < 5 then caught s msgCourseDesc
      else ⟨resetCourseForm (saveDB { s with courses := s.courses ++ [newCourse s t d now] }),
        .success "✅ Course created successfully"⟩ := by
  unfold createOrUpdateCourse
  simp only []
  by_cases ht : jsLength (jsTrim t) < 3
  · rw [if_pos (text_check_true (jsTrim t) 3 ht), if_pos ht]
  · have h1 : ¬ (jsTrim t == "" || decide (jsLength (jsTrim t) < 3)) = true := by
      rw [text_check_false (jsTrim t) 3 (by decide) (Nat.le_of_not_lt ht)]
      exact Bool.false_ne_true
    rw [if_neg h1, if_neg ht]
    by_cases hd : jsLength (jsTrim d) < 5
    · rw [if_pos (text_check_true (jsTrim d) 5 hd), if_pos hd]
    · have h2 : ¬ (jsTrim d == "" || decide (jsLength (jsTrim d) < 5)) = true := by
        rw [text_check_false (jsTrim d) 5 (by decide) (Nat.le_of_not_lt hd)]
        exact Bool.false_ne_true
      have h3 : ¬ (s.editingCourseId != none &&
          s.courses.any fun c => some c.id == s.editingCourseId) = true := by
        rw [hmode]
        simp
      rw [if_neg h2, if_neg hd, if_neg h3]
      rfl

/-- C11: with `editingCourseId` null, `createOrUpdateCourse` is rejected
exactly when the trimmed title is shorter than 3 or the trimmed description is
shorter than 5; the title error wins when both fail; otherwise one course, the
new one, is appended. -/
theorem course_create_validation (s : State) (t d now : String)
    (hmode : s.editingCourseId = none) :
    ((createOrUpdateCourse s t d now).rejected = true ↔
      jsLength (jsTrim t) < 3 ∨ jsLength (jsTrim d) < 5) ∧
    (jsLength (jsTrim t) < 3 → createOrUpdateCourse s t d now = caught s msgCourseTitle) ∧
    (3 ≤ jsLength (jsTrim t) → jsLength (jsTrim d) < 5 →
      createOrUpdateCourse s t d now = caught s msgCourseDesc) ∧
    (3 ≤ jsLength (jsTrim t) → 5 ≤ jsLength (jsTrim d) →
      (createOrUpdateCourse s t d now).state.courses = s.courses ++ [newCourse s t d now] ∧
      (createOrUpdateCourse s t d now).state.courses.length = s.courses.length + 1) := by
  rw [createOrUpdateCourse_create_eq s t d now hmode]
  by_cases ht : jsLength (jsTrim t) < 3
  · rw [if_pos ht]
    refine ⟨⟨fun _ => Or.inl ht, fun _ => rfl⟩, fun _ => rfl, fun h => ?_, fun h => ?_⟩ <;> omega
  · rw [if_neg ht]
    by_cases hd : jsLength (jsTrim d) < 5
    · rw [if_pos hd]
      refine ⟨⟨fun _ => Or.inr hd, fun _ => rfl⟩, fun h => absurd h ht, fun _ _ => rfl,
        fun _ h => ?_⟩
      omega
    · rw [if_neg hd]
      refine ⟨⟨fun h => ?_, fun h => ?_⟩, fun h => absurd h ht, fun _ h => absurd h hd,
        fun _ _ => ⟨rfl, ?_⟩⟩
      · simp [Result.rejected] at h
      · rcases h with h | h
        · exact absurd h ht
        · exact absurd h hd
      · simp [resetCourseForm, saveDB]

/-- Witness of C11: "ab" is rejected, "abc" with a valid description is
accepted, and two letters padded with spaces are rejected. -/
theorem course_create_validation_witness :
    (createOrUpdateCourse emptyState "ab" "hello" "t0").rejected = true ∧
    (createOrUpdateCourse emptyState "abc" "hello" "t0").state.courses
      = [⟨1, "abc", "hello", "t0"⟩] ∧
    (createOrUpdateCourse emptyState "  ab  " "hello" "t0").rejected = true :=
  ⟨(course_create_validation emptyState "ab" "hello" "t0" rfl).1.mpr (Or.inl (by decide)),
    ((course_create_validation emptyState "abc" "hello" "t0" rfl).2.2.2
      (by decide) (by decide)).1,
    (course_create_validation emptyState "  ab  " "hello" "t0" rfl).1.mpr (Or.inl (by decide))⟩

/-! ## Validation of an enrollment -/

/-- The three field checks of `createOrUpdateEnrollment`, in source order. -/
theorem createOrUpdateEnrollment_structural (s : State) (c : Option Int) (n e now : String) :
    (truthy c = false → createOrUpdateEnrollment s c n e now = caught s msgSelectCourse) ∧
    (truthy c = true → jsLength (jsTrim n) < 3 →
      createOrUpdateEnrollment s c n e now = caught s msgStudentName) ∧
    (truthy c = true → 3 ≤ jsLength (jsTrim n) → includesAt (jsTrim e) = false →
      createOrUpdateEnrollment s c n e now = caught s msgEmail) := by
  cases c with
  | none =>
    refine ⟨fun _ => rfl, fun h => ?_, fun h => ?_⟩ <;> simp [truthy] at h
  | some cid =>
    by_cases hc : cid = 0
    · subst hc
      refine ⟨fun _ => ?_, fun h => ?_, fun h => ?_⟩
      · simp [createOrUpdateEnrollment]
      all_goals simp [truthy] at h
    · refine ⟨fun h => ?_, fun _ hn => ?_, fun _ hn he => ?_⟩
      · simp [truthy, hc] at h
      · simp [createOrUpdateEnrollment, hc, hn]
      · have h1 := text_check_false (jsTrim n) 3 (by decide) hn
        simp only [createOrUpdateEnrollment, h1, he]
        simp [hc]

/-- A call that is not rejected passed the three field checks. -/
theorem createOrUpdateEnrollment_valid (s : State) (c : Option Int) (n e now : String)
    (h : (createOrUpdateEnrollment s c n e now).rejected = false) :
    truthy c = true ∧ 3 ≤ jsLength (jsTrim n) ∧ includesAt (jsTrim e) = true := by
  obtain ⟨h1, h2, h3⟩ := createOrUpdateEnrollment_structural s c n e now
  have hc : truthy c = true := by
    cases hc : truthy c with
    | true => rfl
    | false => rw [h1 hc] at h; simp [caught, Result.rejected] at h
  have hn : 3 ≤ jsLength (jsTrim n) := by
    by_contra hlt
    rw [h2 hc (Nat.lt_of_not_le hlt)] at h
    simp [caught, Result.rejected] at h
  refine ⟨hc, hn, ?_⟩
  cases he : includesAt (jsTrim e) with
  | true => rfl
  | false => rw [h3 hc hn he] at h; simp [caught, Result.rejected] at h

/-- The record found by `findIndex` is the one `modifyAt` rewrites. -/
theorem modifyAt_findIndex_mem {α : Type} (p : α → Bool) (f : α → α) :
    ∀ (l : List α) (idx : Nat), findIndex p l = some idx →
      ∃ a ∈ l, p a = true ∧ f a ∈ modifyAt f idx l := by
  intro l
  induction l with
  | nil => intro idx h; simp [findIndex] at h
  | cons x xs ih =>
    intro idx h
    simp only [findIndex] at h
    split at h
    · rename_i hx
      cases h
      exact ⟨x, List.mem_cons_self _ _, hx, by simp [modifyAt]⟩
    · cases hrec : findIndex p xs with
      | none => rw [hrec] at h; simp at h
      | some j =>
        rw [hrec] at h
        simp only [Option.map_some', Option.some.injEq] at h
        subst h
        obtain ⟨a, ha, hpa, hfa⟩ := ih j hrec
        exact ⟨a, List.mem_cons_of_mem _ ha, hpa, by simp [modifyAt, hfa]⟩

/-- C12: whenever the parsed courseId is falsy, or the trimmed name is shorter
than 3, or the trimmed email has no "@", `createOrUpdateEnrollment` fails with
one of the three validation errors and leaves the enrollment list as it was;
and on every call that is not rejected the record written carries the trimmed
name, of length at least 3, and the trimmed email, which contains "@", while
every other record is an old one. -/
theorem enrollment_validation (s : State) (c : Option Int) (n e now : String) :
    (truthy c = false ∨ jsLength (jsTrim n) < 3 ∨ includesAt (jsTrim e) = false →
      (createOrUpdateEnrollment s c n e now = caught s msgSelectCourse ∨
        createOrUpdateEnrollment s c n e now = caught s msgStudentName ∨
        createOrUpdateEnrollment s c n e now = caught s msgEmail) ∧
      (createOrUpdateEnrollment s c n e now).rejected = true ∧
      (createOrUpdateEnrollment s c n e now).state.enrollments = s.enrollments) ∧
    ((createOrUpdateEnrollment s c n e now).rejected = false →
      3 ≤ jsLength (jsTrim n) ∧ includesAt (jsTrim e) = true ∧
      (∃ x ∈ (createOrUpdateEnrollment s c n e now).state.enrollments,
        some x.courseId = c ∧ x.name = jsTrim n ∧ x.email = jsTrim e) ∧
      (∀ x ∈ (createOrUpdateEnrollment s c n e now).state.enrollments,
        x ∈ s.enrollments ∨ (x.name = jsTrim n ∧ x.email = jsTrim e))) := by
  obtain ⟨h1, h2, h3⟩ := createOrUpdateEnrollment_structural s c n e now
  constructor
  · intro hbad
    have key : createOrUpdateEnrollment s c n e now = caught s msgSelectCourse ∨
        createOrUpdateEnrollment s c n e now = caught s msgStudentName ∨
        createOrUpdateEnrollment s c n e now = caught s msgEmail := by
      cases hc : truthy c with
      | false => exact Or.inl (h1 hc)
      | true =>
        by_cases hn : jsLength (jsTrim n) < 3
        · exact Or.inr (Or.inl (h2 hc hn))
        · cases he : includesAt (jsTrim e) with
          | false => exact Or.inr (Or.inr (h3 hc (Nat.le_of_not_lt hn) he))
          | true =>
            rcases hbad with hb | hb | hb
            · rw [hc] at hb; exact Bool.noConfusion hb
            · exact absurd hb hn
            · rw [he] at hb; exact Bool.noConfusion hb
    refine ⟨key, ?_, ?_⟩
    · rcases key with k | k | k <;> rw [k] <;> rfl
    · rcases key with k | k | k <;> rw [k] <;> rfl
  · intro hok
    obtain ⟨_, hn, he⟩ := createOrUpdateEnrollment_valid s c n e now hok
    refine ⟨hn, he, ?_, ?_⟩
    · rcases createOrUpdateEnrollment_cases s c n e now with
        ⟨hr, _⟩ | ⟨cid, k, idx, hc, _, _, hfi, _, _, hs⟩ | ⟨cid, hc, _, _, _, hs⟩
      · rw [hr] at hok; exact Bool.noConfusion hok
      · obtain ⟨a, _, _, hfa⟩ := modifyAt_findIndex_mem
          (fun x : Enrollment => some x.id == some k)
          (setEnrollFields cid (jsTrim n) (jsTrim e)) s.enrollments idx hfi
        rw [hs]
        exact ⟨_, hfa, by rw [hc]; rfl, rfl, rfl⟩
      · rw [hs]
        exact ⟨newEnrollment s cid n e now, by simp, by rw [hc]; rfl, rfl, rfl⟩
    · intro x hx
      rcases createOrUpdateEnrollment_cases s c n e now with
        ⟨_, hs⟩ | ⟨cid, k, idx, _, _, _, _, _, _, hs⟩ | ⟨cid, _, _, _, _, hs⟩
      · rw [hs] at hx; exact Or.inl hx
      · rw [hs] at hx
        rcases mem_modifyAt _ _ _ _ hx with h | ⟨b, _, rfl⟩
        · exact Or.inl h
        · exact Or.inr ⟨rfl, rfl⟩
      · rw [hs, List.mem_append, List.mem_singleton] at hx
        rcases hx with h | rfl
        · exact Or.inl h
        · exact Or.inr ⟨rfl, rfl⟩

/-- Witness of C12: a missing "@" is rejected on the one-course state, and a
padded name and email are stored trimmed. -/
theorem enrollment_validation_witness :
    (createOrUpdateEnrollment oneCourse (some 1) "Alice" "alice.example.org" "t1").rejected
      = true ∧
    (∃ x ∈ (createOrUpdateEnrollment oneCourse (some 1) " Alice " " a@b.com " "t1").state.enrollments,
      some x.courseId = some 1 ∧ x.name = jsTrim " Alice " ∧ x.email = jsTrim " a@b.com ") :=
  ⟨((enrollment_validation oneCourse (some 1) "Alice" "alice.example.org" "t1").1
      (Or.inr (Or.inr (by decide)))).2.1,
    ((enrollment_validation oneCourse (some 1) " Alice " " a@b.com " "t1").2 (by decide)).2.2.1⟩

/-! ## A second enrollment with the same course and email -/

/-- An accepted enrollment submission ends with `saveDB` and
`resetEnrollForm`; a rejected one leaves the state as it was. -/
theorem createOrUpdateEnrollment_commit (s : State) (c : Option Int) (n e now : String) :
    ((createOrUpdateEnrollment s c n e now).rejected = true ∧
      (createOrUpdateEnrollment s c n e now).state = s) ∨
    ((createOrUpdateEnrollment s c n e now).rejected = false ∧
      (createOrUpdateEnrollment s c n e now).state.editingEnrollId = none ∧
      (createOrUpdateEnrollment s c n e now).state.editingCourseId = s.editingCourseId ∧
      (createOrUpdateEnrollment s c n e now).state.localStorage
        = ⟨some (createOrUpdateEnrollment s c n e now).state.courses,
            some (createOrUpdateEnrollment s c n e now).state.enrollments⟩) := by
  unfold createOrUpdateEnrollment
  simp only []
  split
  · exact Or.inl ⟨rfl, rfl⟩
  · split
    · exact Or.inl ⟨rfl, rfl⟩
    · split
      · exact Or.inl ⟨rfl, rfl⟩
      · split
        · exact Or.inl ⟨rfl, rfl⟩
        · split
          · exact Or.inl ⟨rfl, rfl⟩
          · split
            · split
              · exact Or.inl ⟨rfl, rfl⟩
              · exact Or.inr ⟨rfl, rfl, rfl, rfl⟩
            · exact Or.inr ⟨rfl, rfl, rfl, rfl⟩

/-- A call that is not rejected leaves `editingEnrollId` null. -/
theorem createOrUpdateEnrollment_editing (s : State) (c : Option Int) (n e now : String)
    (h : (createOrUpdateEnrollment s c n e now).rejected = false) :
    (createOrUpdateEnrollment s c n e now).state.editingEnrollId = none := by
  rcases createOrUpdateEnrollment_commit s c n e now with ⟨hr, _⟩ | ⟨_, hed, _⟩
  · rw [hr] at h; exact Bool.noConfusion h
  · exact hed

/-- In create mode, a duplicate of a well-formed stored pair is refused. -/
theorem createOrUpdateEnrollment_duplicate (s : State) (c : Int) (n e now : String)
    (hmode : s.editingEnrollId = none)
    (hdup : ∃ x ∈ s.enrollments, x.courseId = c ∧ x.email = jsTrim e)
    (hc : c ≠ 0) (he : includesAt (jsTrim e) = true) (hn : 3 ≤ jsLength (jsTrim n)) :
    createOrUpdateEnrollment s (some c) n e now = caught s msgDuplicateEmail := by
  have h1 := text_check_false (jsTrim n) 3 (by decide) hn
  have hany : (s.enrollments.any fun x =>
      x.courseId == c && x.email == jsTrim e && some x.id != s.editingEnrollId) = true := by
    obtain ⟨x, hx, hxc, hxe⟩ := hdup
    rw [List.any_eq_true]
    exact ⟨x, hx, by simp [hxc, hxe, hmode]⟩
  simp only [createOrUpdateEnrollment, h1, he, hany]
  simp [hc]

/-- C13, as stated, fails: a stored enrollment whose email is "ann" does not
make a second submission of course 1 and "ann" fail with the duplicate-email
error; the email check, which runs first, rejects it. -/
theorem duplicate_of_malformed_email :
    ¬ ∀ (s : State) (c : Int) (m n e now : String),
      s.editingEnrollId = none → (∃ x ∈ s.enrollments, x.courseId = c ∧ x.email = m) →
      3 ≤ jsLength (jsTrim n) → jsTrim e = m →
      (createOrUpdateEnrollment s (some c) n e now).toast = .error ("❌ " ++ msgDuplicateEmail) ∧
      (createOrUpdateEnrollment s (some c) n e now).state.enrollments = s.enrollments := by
  intro h
  have h1 := h storedNoAt 1 "ann" "Bob" "ann" "t2" rfl
    ⟨⟨1, 1, "Ann", "ann", "t1"⟩, by decide, rfl, rfl⟩ (by decide) (by decide)
  have h2 : (createOrUpdateEnrollment storedNoAt (some 1) "Bob" "ann" "t2").toast
      = .error ("❌ " ++ msgEmail) := by decide
  rw [h2] at h1
  exact absurd h1.1 (by decide)

/-- C13 (amended): in a state with `editingEnrollId` null that contains an
enrollment with a non-zero courseId `c` and an email `m` containing "@", a
submission of `c`, a valid name and an email whose trimmed value is `m` fails
with the duplicate-email error and changes nothing; and after a create that
was accepted, a second create with the same courseId and the same trimmed
email fails with that error. -/
theorem duplicate_enrollment_rejected (s : State) :
    (∀ (c : Int) (m n e now : String), s.editingEnrollId = none →
      (∃ x ∈ s.enrollments, x.courseId = c ∧ x.email = m) → c ≠ 0 → includesAt m = true →
      3 ≤ jsLength (jsTrim n) → jsTrim e = m →
      createOrUpdateEnrollment s (some c) n e now = caught s msgDuplicateEmail) ∧
    (∀ (c : Option Int) (n1 e1 t1 n2 e2 t2 : String), enrollUpdateMode s = false →
      (createOrUpdateEnrollment s c n1 e1 t1).rejected = false →
      3 ≤ jsLength (jsTrim n2) → jsTrim e2 = jsTrim e1 →
      createOrUpdateEnrollment (createOrUpdateEnrollment s c n1 e1 t1).state c n2 e2 t2
        = caught (createOrUpdateEnrollment s c n1 e1 t1).state msgDuplicateEmail) := by
  constructor
  · intro c m n e now hmode hdup hc hm hn hem
    subst hem
    exact createOrUpdateEnrollment_duplicate s c n e now hmode hdup hc hm hn
  · intro c n1 e1 t1 n2 e2 t2 hmode hok hn2 hem
    obtain ⟨hc, _, he1⟩ := createOrUpdateEnrollment_valid s c n1 e1 t1 hok
    have hed := createOrUpdateEnrollment_editing s c n1 e1 t1 hok
    rcases createOrUpdateEnrollment_cases s c n1 e1 t1 with
      ⟨hr, _⟩ | ⟨cid, k, idx, _, hk, hk0, _, _, _, _⟩ | ⟨cid, hcid, _, _, _, hs⟩
    · rw [hr] at hok; exact Bool.noConfusion hok
    · simp [enrollUpdateMode, hk, truthy, hk0] at hmode
    · subst hcid
      have hcid0 : cid ≠ 0 := by simpa [truthy] using hc
      apply createOrUpdateEnrollment_duplicate _ cid n2 e2 t2 hed _ hcid0 (by rw [hem]; exact he1) hn2
      refine ⟨newEnrollment s cid n1 e1 t1, ?_, rfl, ?_⟩
      · rw [hs]; simp
      · rw [hem]; rfl

/-- Witness of C13 (amended): Alice's course and email are submitted again. -/
theorem duplicate_enrollment_rejected_witness :
    createOrUpdateEnrollment oneEnrollment (some 1) "Alicia" " a@b.com" "t2"
      = caught oneEnrollment msgDuplicateEmail :=
  (duplicate_enrollment_rejected oneEnrollment).1 1 "a@b.com" "Alicia" " a@b.com" "t2"
    (by decide) ⟨⟨1, 1, "Alice", "a@b.com", "t1"⟩, by decide, rfl, rfl⟩
    (by decide) (by decide) (by decide) (by decide)

/-! ## Updating an enrollment in place -/

theorem findIndex_of_mem {α : Type} (p : α → Bool) (l : List α) (a : α) (ha : a ∈ l)
    (hp : p a = true) : ∃ idx, findIndex p l = some idx := by
  induction l with
  | nil => simp at ha
  | cons x xs ih =>
    simp only [findIndex]
    by_cases hx : p x = true
    · exact ⟨0, by rw [if_pos hx]⟩
    · rw [if_neg hx]
      rcases List.mem_cons.mp ha with rfl | h
      · exact absurd hp hx
      · obtain ⟨j, hj⟩ := ih h
        exact ⟨j + 1, by rw [hj]; rfl⟩

/-- With pairwise distinct keys, rewriting the first record of key `k` is
rewriting every record of key `k`. -/
theorem modifyAt_eq_map {α : Type} (g : α → Int) (f : α → α) (k : Int) :
    ∀ (l : List α) (idx : Nat), (l.map g).Nodup →
      findIndex (fun x => some (g x) == some k) l = some idx →
      modifyAt f idx l = l.map (fun x => if g x = k then f x else x) := by
  intro l
  induction l with
  | nil => intro idx _ h; simp [findIndex] at h
  | cons a l ih =>
    intro idx hnd h
    simp only [List.map_cons, List.nodup_cons] at hnd
    simp only [findIndex] at h
    split at h
    · rename_i ha
      have hak : g a = k := by simpa using ha
      cases h
      simp only [modifyAt, List.map_cons, if_pos hak, List.cons.injEq, true_and]
      symm
      conv_rhs => rw [← List.map_id l]
      apply List.map_congr_left
      intro x hx
      have hxk : g x ≠ k := by
        intro hxk
        exact hnd.1 (List.mem_map.mpr ⟨x, hx, by rw [hxk, hak]⟩)
      simp [hxk]
    · rename_i ha
      have hak : g a ≠ k := by simpa using ha
      cases hrec : findIndex (fun x => some (g x) == some k) l with
      | none => rw [hrec] at h; simp at h
      | some j =>
        rw [hrec] at h
        simp only [Option.map_some', Option.some.injEq] at h
        subst h
        simp only [modifyAt, List.map_cons, if_neg hak, ih j hnd.2 hrec]

/-- What `editEnrollment` does when the id is present. -/
theorem editEnrollment_found (s : State) (e : Enrollment) (he : e ∈ s.enrollments) :
    (editEnrollment s e.id).state = { s with editingEnrollId := some e.id } := by
  unfold editEnrollment
  split
  · rename_i h
    rw [List.find?_eq_none] at h
    exact absurd (by simp) (h e he)
  · rfl

/-- What `createOrUpdateEnrollment` returns on the update branch. -/
theorem createOrUpdateEnrollment_update_eq (s : State) (cid k : Int) (idx : Nat)
    (n e now : String) (hk : s.editingEnrollId = some k) (hk0 : k ≠ 0) (hc : cid ≠ 0)
    (hn : 3 ≤ jsLength (jsTrim n)) (he : includesAt (jsTrim e) = true)
    (hany : (s.enrollments.any fun x =>
      x.courseId == cid && x.email == jsTrim e && some x.id != s.editingEnrollId) = false)
    (hfi : findIndex (fun x : Enrollment => some x.id == s.editingEnrollId) s.enrollments
      = some idx) :
    createOrUpdateEnrollment s (some cid) n e now =
      ⟨resetEnrollForm (saveDB { s with
          enrollments := modifyAt (setEnrollFields cid (jsTrim n) (jsTrim e)) idx s.enrollments
          editingEnrollId := none }),
        .success "✅ Enrollment updated"⟩ := by
  have h1 := text_check_false (jsTrim n) 3 (by decide) hn
  have htr : truthy s.editingEnrollId = true := by simp [hk, truthy, hk0]
  simp only [createOrUpdateEnrollment, h1, he, hany, hfi, htr]
  simp [hc]
  rfl

/-- C14, as stated, fails: the stored enrollment 2 has the email "eve";
selected for editing and resubmitted with its own course and email, it is
rejected by the email check. -/
theorem own_email_update_rejected :
    ¬ ∀ (s : State) (e : Enrollment) (n now : String),
      EmailUnique s.enrollments → EnrollIdsUnique s → e ∈ s.enrollments →
      3 ≤ jsLength (jsTrim n) →
      (createOrUpdateEnrollment (editEnrollment s e.id).state (some e.courseId) n e.email
        now).rejected = false ∧
      ∃ x ∈ (createOrUpdateEnrollment (editEnrollment s e.id).state (some e.courseId) n
          e.email now).state.enrollments,
        x.id = e.id ∧ x.name = jsTrim n ∧ x.courseId = e.courseId ∧ x.email = e.email := by
  intro h
  have h1 := h storedBareEmail ⟨2, 1, "Eve", "eve", "t1"⟩ "Evelyn" "t2"
    (by
      have : storedBareEmail.enrollments = [⟨2, 1, "Eve", "eve", "t1"⟩] := by decide
      rw [this]
      exact List.pairwise_singleton _ _)
    (by unfold EnrollIdsUnique; decide) (by decide) (by decide)
  exact absurd h1.1 (by decide)

/-- C14 (amended): in a state satisfying I3 and enrollment-id uniqueness, let
`e` be an enrollment with non-zero id, non-zero courseId and an email that
contains "@" and has no surrounding white space. After `editEnrollment(e.id)`,
submitting `e`'s own courseId and email with a name of trimmed length at least
3 succeeds, and the enrollment list is the old one with `e` replaced by `e`
carrying the new trimmed name. -/
theorem own_email_update (s : State) (e : Enrollment) (n now : String)
    (hu : EmailUnique s.enrollments) (hid : EnrollIdsUnique s) (he : e ∈ s.enrollments)
    (hid0 : e.id ≠ 0) (hc0 : e.courseId ≠ 0) (hat : includesAt e.email = true)
    (htrim : jsTrim e.email = e.email) (hn : 3 ≤ jsLength (jsTrim n)) :
    (createOrUpdateEnrollment (editEnrollment s e.id).state (some e.courseId) n e.email
      now).toast = .success "✅ Enrollment updated" ∧
    (createOrUpdateEnrollment (editEnrollment s e.id).state (some e.courseId) n e.email
      now).state.enrollments
      = s.enrollments.map (fun x => if x.id = e.id then { e with name := jsTrim n } else x) ∧
    ({ e with name := jsTrim n } : Enrollment) ∈
      (createOrUpdateEnrollment (editEnrollment s e.id).state (some e.courseId) n e.email
        now).state.enrollments := by
  rw [editEnrollment_found s e he]
  have hsym : Symmetric fun a b : Enrollment => ¬ (a.courseId = b.courseId ∧ a.email = b.email) :=
    fun a b h hab => h ⟨hab.1.symm, hab.2.symm⟩
  have hinj := List.inj_on_of_nodup_map hid
  have hany : (s.enrollments.any fun x =>
      x.courseId == e.courseId && x.email == jsTrim e.email && some x.id != some e.id)
      = false := by
    rw [List.any_eq_false]
    intro x hx hcond
    simp only [Bool.and_eq_true, beq_iff_eq, bne_iff_ne, ne_eq, Option.some.injEq] at hcond
    obtain ⟨⟨hxc, hxe⟩, hxid⟩ := hcond
    have hne : x ≠ e := fun hxe' => hxid (by rw [hxe'])
    exact List.Pairwise.forall hsym hu hx he hne ⟨hxc, by rw [hxe, htrim]⟩
  obtain ⟨idx, hfi⟩ := findIndex_of_mem (fun x : Enrollment => some x.id == some e.id)
    s.enrollments e he (by simp)
  have hmap : modifyAt (setEnrollFields e.courseId (jsTrim n) (jsTrim e.email)) idx s.enrollments
      = s.enrollments.map (fun x => if x.id = e.id then { e with name := jsTrim n } else x) := by
    rw [modifyAt_eq_map (fun x : Enrollment => x.id) _ e.id s.enrollments idx hid hfi]
    apply List.map_congr_left
    intro x hx
    by_cases hxe : x.id = e.id
    · have : x = e := hinj hx he hxe
      subst this
      simp only [if_pos, setEnrollFields, htrim]
    · simp only [if_neg hxe]
  rw [createOrUpdateEnrollment_update_eq { s with editingEnrollId := some e.id } e.courseId e.id
    idx n e.email now rfl hid0 hc0 hn (by rw [htrim]; exact hat) hany hfi]
  refine ⟨rfl, ?_, ?_⟩
  · simp only [resetEnrollForm, saveDB]
    exact hmap
  · simp only [resetEnrollForm, saveDB]
    rw [hmap, List.mem_map]
    exact ⟨e, he, by simp⟩

/-- Witness of C14 (amended): Alice is renamed, course and email kept. -/
theorem own_email_update_witness :
    (createOrUpdateEnrollment (editEnrollment oneEnrollment 1).state (some 1) "Alicia"
      "a@b.com" "t2").state.enrollments = [⟨1, 1, "Alicia", "a@b.com", "t1"⟩] := by
  have h := (own_email_update oneEnrollment ⟨1, 1, "Alice", "a@b.com", "t1"⟩ "Alicia" "t2"
    (by
      have : oneEnrollment.enrollments = [⟨1, 1, "Alice", "a@b.com", "t1"⟩] := by decide
      rw [this]
      exact List.pairwise_singleton _ _)
    (by unfold EnrollIdsUnique; decide) (by decide) (by decide) (by decide) (by decide)
    (by decide) (by decide)).2.1
  rw [h]
  decide

/-! ## Create, then look the new id up -/

theorem findIndex_any {α : Type} (p : α → Bool) (l : List α) (idx : Nat)
    (h : findIndex p l = some idx) : l.any p = true := by
  obtain ⟨a, ha, hpa, _⟩ := modifyAt_findIndex_mem p id l idx h
  exact List.any_eq_true.mpr ⟨a, ha, hpa⟩

/-- Outside update mode an accepted course submission appends the new course. -/
theorem createOrUpdateCourse_create (s : State) (t d now : String)
    (hmode : courseUpdateMode s = false)
    (hok : (createOrUpdateCourse s t d now).rejected = false) :
    (createOrUpdateCourse s t d now).state.courses = s.courses ++ [newCourse s t d now] := by
  rcases createOrUpdateCourse_cases s t d now with ⟨hr, _⟩ | ⟨k, idx, hk, hfi, _, _⟩ | ⟨_, hs⟩
  · rw [hr] at hok; exact Bool.noConfusion hok
  · have hany := findIndex_any _ _ _ hfi
    rw [← hk] at hany
    simp only [courseUpdateMode, hany, Bool.and_true] at hmode
    rw [hk] at hmode
    simp at hmode
  · exact hs

/-- Outside update mode an accepted enrollment submission appends the new
enrollment. -/
theorem createOrUpdateEnrollment_create (s : State) (cid : Int) (n e now : String)
    (hmode : enrollUpdateMode s = false)
    (hok : (createOrUpdateEnrollment s (some cid) n e now).rejected = false) :
    (createOrUpdateEnrollment s (some cid) n e now).state.enrollments
      = s.enrollments ++ [newEnrollment s cid n e now] := by
  rcases createOrUpdateEnrollment_cases s (some cid) n e now with
    ⟨hr, _⟩ | ⟨c, k, idx, _, hk, hk0, _, _, _, _⟩ | ⟨c, hc, _, _, _, hs⟩
  · rw [hr] at hok; exact Bool.noConfusion hok
  · simp [enrollUpdateMode, hk, truthy, hk0] at hmode
  · cases hc
    exact hs

theorem filter_append_fresh {α : Type} (p : α → Bool) (l : List α) (a : α)
    (hl : ∀ x ∈ l, p x = false) (ha : p a = true) : (l ++ [a]).filter p = [a] := by
  rw [List.filter_append, List.filter_eq_nil_iff.mpr (fun x hx => by simp [hl x hx])]
  simp [ha]

theorem find?_append_fresh {α : Type} (p : α → Bool) (l : List α) (a : α)
    (hl : ∀ x ∈ l, p x = false) (ha : p a = true) : (l ++ [a]).find? p = some a := by
  induction l with
  | nil => simp [ha]
  | cons x xs ih =>
    have hx : p x = false := hl x (List.mem_cons_self _ _)
    simp only [List.cons_append, List.find?_cons, hx]
    exact ih (fun y hy => hl y (List.mem_cons_of_mem _ hy))

theorem id_ne_generateId {α : Type} (g : α → Int) (l : List α) (hs : SafeIds (l.map g))
    (x : α) (hx : x ∈ l) : (g x == generateId (l.map g)) = false := by
  have h := lt_generateId (l.map g) hs (g x) (List.mem_map.mpr ⟨x, hx, rfl⟩)
  simp only [beq_eq_false_iff_ne, ne_eq]
  omega

/-- C15, as stated, fails: the stored enrollment has id `2 ^ 53`; an accepted
create allocates `generateId = 2 ^ 53` again, so the lookup of the new id
finds the old record first and the filter returns two records. -/
theorem big_id_lookup_ambiguous :
    ¬ ∀ (s : State) (cid : Int) (n e now : String), CourseIdsUnique s → EnrollIdsUnique s →
      enrollUpdateMode s = false →
      (createOrUpdateEnrollment s (some cid) n e now).rejected = false →
      (createOrUpdateEnrollment s (some cid) n e now).state.enrollments.filter
          (fun x => x.id == generateId (s.enrollments.map (·.id)))
        = [⟨generateId (s.enrollments.map (·.id)), cid, jsTrim n, jsTrim e, now⟩] ∧
      (createOrUpdateEnrollment s (some cid) n e now).state.enrollments.find?
          (fun x => x.id == generateId (s.enrollments.map (·.id)))
        = some ⟨generateId (s.enrollments.map (·.id)), cid, jsTrim n, jsTrim e, now⟩ := by
  intro h
  have h1 := (h bigEnrollId 1 "Bob" "bob@x.org" "t2" (by unfold CourseIdsUnique; decide)
    (by unfold EnrollIdsUnique; decide) (by decide) (by decide)).2
  have h2 : (createOrUpdateEnrollment bigEnrollId (some 1) "Bob" "bob@x.org"
      "t2").state.enrollments.find?
        (fun x => x.id == generateId (bigEnrollId.enrollments.map (·.id)))
      = some ⟨9007199254740992, 1, "Ann", "ann@x.org", "t1"⟩ := by decide
  rw [h2] at h1
  exact absurd h1 (by decide)

/-- C15 (amended): on a state whose ids are safe integers, after a create
that is accepted, a lookup of the newly allocated id (`generateId` of the list
before the call) in the resulting list finds exactly one record, the one
carrying that id, the trimmed submitted fields and the time stamp; for courses
and for enrollments alike. -/
theorem create_then_get (s : State) :
    (∀ (t d now : String), SafeIds (s.courses.map (·.id)) → courseUpdateMode s = false →
      (createOrUpdateCourse s t d now).rejected = false →
      (createOrUpdateCourse s t d now).state.courses.filter
          (fun c => c.id == generateId (s.courses.map (·.id)))
        = [⟨generateId (s.courses.map (·.id)), jsTrim t, jsTrim d, now⟩] ∧
      (createOrUpdateCourse s t d now).state.courses.find?
          (fun c => c.id == generateId (s.courses.map (·.id)))
        = some ⟨generateId (s.courses.map (·.id)), jsTrim t, jsTrim d, now⟩) ∧
    (∀ (cid : Int) (n e now : String), SafeIds (s.enrollments.map (·.id)) →
      enrollUpdateMode s = false →
      (createOrUpdateEnrollment s (some cid) n e now).rejected = false →
      (createOrUpdateEnrollment s (some cid) n e now).state.enrollments.filter
          (fun x => x.id == generateId (s.enrollments.map (·.id)))
        = [⟨generateId (s.enrollments.map (·.id)), cid, jsTrim n, jsTrim e, now⟩] ∧
      (createOrUpdateEnrollment s (some cid) n e now).state.enrollments.find?
          (fun x => x.id == generateId (s.enrollments.map (·.id)))
        = some ⟨generateId (s.enrollments.map (·.id)), cid, jsTrim n, jsTrim e, now⟩) := by
  constructor
  · intro t d now hsafe hmode hok
    rw [createOrUpdateCourse_create s t d now hmode hok]
    exact ⟨filter_append_fresh _ _ _
        (fun x hx => id_ne_generateId (fun c : Course => c.id) _ hsafe x hx)
        (by simp [newCourse]),
      find?_append_fresh _ _ _
        (fun x hx => id_ne_generateId (fun c : Course => c.id) _ hsafe x hx)
        (by simp [newCourse])⟩
  · intro cid n e now hsafe hmode hok
    rw [createOrUpdateEnrollment_create s cid n e now hmode hok]
    exact ⟨filter_append_fresh _ _ _
        (fun x hx => id_ne_generateId (fun c : Enrollment => c.id) _ hsafe x hx)
        (by simp [newEnrollment]),
      find?_append_fresh _ _ _
        (fun x hx => id_ne_generateId (fun c : Enrollment => c.id) _ hsafe x hx)
        (by simp [newEnrollment])⟩

/-- Witness of C15: the second enrollment of a session is found under id 2. -/
theorem create_then_get_witness :
    (createOrUpdateEnrollment oneEnrollment (some 1) " Bob " "b@c.com" "t2").state.enrollments.find?
        (fun x => x.id == generateId (oneEnrollment.enrollments.map (·.id)))
      = some ⟨generateId (oneEnrollment.enrollments.map (·.id)), 1, jsTrim " Bob ",
          jsTrim "b@c.com", "t2"⟩ :=
  ((create_then_get oneEnrollment).2 1 " Bob " "b@c.com" "t2" (by unfold SafeIds; decide)
    (by decide) (by decide)).2

/-! ## Deleting an enrollment -/

/-- What `deleteEnrollment` returns, by cases on its guard. -/
theorem deleteEnrollment_eq (s : State) (id : Int) :
    deleteEnrollment s id =
      if ∀ e ∈ s.enrollments, e.id ≠ id then caught s msgEnrollNotFound
      else ⟨saveDB { s with enrollments := s.enrollments.filter (fun e => e.id != id) },
        .success "🗑️ Enrollment deleted"⟩ := by
  unfold deleteEnrollment
  split
  · rename_i h
    rw [List.find?_eq_none] at h
    rw [if_pos (fun e he => by simpa using h e he)]
  · rename_i x h
    have hne : ¬ ∀ e ∈ s.enrollments, e.id ≠ id := by
      intro hall
      have hmem := List.mem_of_find?_eq_some h
      have hp := List.find?_some h
      exact hall x hmem (by simpa using hp)
    rw [if_neg hne]

theorem length_filter_remove_one {α : Type} (g : α → Int) (k : Int) :
    ∀ (l : List α), (l.map g).Nodup → (∃ x ∈ l, g x = k) →
      (l.filter (fun x => g x != k)).length + 1 = l.length := by
  intro l
  induction l with
  | nil => intro _ h; simp at h
  | cons a l ih =>
    intro hnd hex
    simp only [List.map_cons, List.nodup_cons] at hnd
    by_cases hak : g a = k
    · have hall : ∀ x ∈ l, (g x != k) = true := by
        intro x hx
        simp only [bne_iff_ne, ne_eq]
        intro hxk
        exact hnd.1 (List.mem_map.mpr ⟨x, hx, by rw [hxk, hak]⟩)
      simp [List.filter_cons, hak, List.filter_eq_self.mpr hall]
    · have hex' : ∃ x ∈ l, g x = k := by
        obtain ⟨x, hx, hxk⟩ := hex
        rcases List.mem_cons.mp hx with rfl | hx
        · exact absurd hxk hak
        · exact ⟨x, hx, hxk⟩
      simp [List.filter_cons, hak, ih hnd.2 hex']

/-- C16: `deleteEnrollment s id` fails with "Enrollment not found!" exactly
when no enrollment has the id; otherwise it keeps exactly the enrollments with
another id, in particular removes exactly one record when ids are unique,
leaves the course list as it was, and keeps referential integrity. -/
theorem deleteEnrollment_outcome (s : State) (id : Int) :
    ((deleteEnrollment s id).toast = .error ("❌ " ++ msgEnrollNotFound) ↔
      ∀ e ∈ s.enrollments, e.id ≠ id) ∧
    ((deleteEnrollment s id).rejected = true ↔ ∀ e ∈ s.enrollments, e.id ≠ id) ∧
    ((∃ e ∈ s.enrollments, e.id = id) →
      (deleteEnrollment s id).state.enrollments = s.enrollments.filter (fun e => e.id != id) ∧
      (∀ e, e ∈ (deleteEnrollment s id).state.enrollments ↔ e ∈ s.enrollments ∧ e.id ≠ id) ∧
      (deleteEnrollment s id).state.courses = s.courses ∧
      (RefIntegrity s → RefIntegrity (deleteEnrollment s id).state) ∧
      (EnrollIdsUnique s →
        (deleteEnrollment s id).state.enrollments.length + 1 = s.enrollments.length)) := by
  rw [deleteEnrollment_eq]
  by_cases h : ∀ e ∈ s.enrollments, e.id ≠ id
  · rw [if_pos h]
    refine ⟨⟨fun _ => h, fun _ => rfl⟩, ⟨fun _ => h, fun _ => rfl⟩, ?_⟩
    rintro ⟨e, he, hid⟩
    exact absurd hid (h e he)
  · rw [if_neg h]
    refine ⟨⟨fun ht => ?_, fun hall => absurd hall h⟩,
      ⟨fun hr => ?_, fun hall => absurd hall h⟩, fun hex => ⟨rfl, ?_, rfl, ?_, ?_⟩⟩
    · exact Toast.noConfusion ht
    · simp [Result.rejected] at hr
    · intro e
      simp [saveDB, List.mem_filter]
    · intro hri e he
      simp only [saveDB, List.mem_filter] at he ⊢
      exact hri e he.1
    · intro hu
      simp only [saveDB]
      exact length_filter_remove_one (fun e : Enrollment => e.id) id s.enrollments hu hex

/-- Witness of C16: deleting Alice's enrollment empties the list and keeps
the course; deleting an unknown id is refused. -/
theorem deleteEnrollment_outcome_witness :
    (deleteEnrollment oneEnrollment 1).state.enrollments.length + 1
      = oneEnrollment.enrollments.length ∧
    (deleteEnrollment oneEnrollment 1).state.courses = oneEnrollment.courses ∧
    (deleteEnrollment oneEnrollment 5).rejected = true :=
  have hex : ∃ e ∈ oneEnrollment.enrollments, e.id = 1 :=
    ⟨⟨1, 1, "Alice", "a@b.com", "t1"⟩, by decide, rfl⟩
  ⟨((deleteEnrollment_outcome oneEnrollment 1).2.2 hex).2.2.2.2
      (by unfold EnrollIdsUnique; decide),
    ((deleteEnrollment_outcome oneEnrollment 1).2.2 hex).2.2.1,
    (deleteEnrollment_outcome oneEnrollment 5).2.1.mpr (by decide)⟩

/-! ## Update in place -/

/-- An accepted course submission ends with `saveDB` and `resetCourseForm`,
after an in-place update in update mode and after an append otherwise; a
rejected one leaves the state as it was. -/
theorem createOrUpdateCourse_commit (s : State) (t d now : String) :
    ((createOrUpdateCourse s t d now).rejected = true ∧
      (createOrUpdateCourse s t d now).state = s) ∨
    ((createOrUpdateCourse s t d now).rejected = false ∧
      (createOrUpdateCourse s t d now).state.editingCourseId = none ∧
      (createOrUpdateCourse s t d now).state.editingEnrollId = s.editingEnrollId ∧
      (createOrUpdateCourse s t d now).state.enrollments = s.enrollments ∧
      (createOrUpdateCourse s t d now).state.localStorage
        = ⟨some (createOrUpdateCourse s t d now).state.courses,
            some (createOrUpdateCourse s t d now).state.enrollments⟩ ∧
      ((courseUpdateMode s = true ∧ ∃ idx,
          findIndex (fun c : Course => some c.id == s.editingCourseId) s.courses = some idx ∧
          (createOrUpdateCourse s t d now).state.courses
            = modifyAt (setCourseFields (jsTrim t) (jsTrim d)) idx s.courses) ∨
        (courseUpdateMode s = false ∧
          (createOrUpdateCourse s t d now).state.courses
            = s.courses ++ [newCourse s t d now]))) := by
  unfold createOrUpdateCourse
  simp only []
  split
  · exact Or.inl ⟨rfl, rfl⟩
  · split
    · exact Or.inl ⟨rfl, rfl⟩
    · split
      · rename_i hmode
        split
        · exact Or.inl ⟨rfl, rfl⟩
        · rename_i idx hidx
          exact Or.inr ⟨rfl, rfl, rfl, rfl, rfl, Or.inl ⟨hmode, idx, hidx, rfl⟩⟩
      · rename_i hmode
        exact Or.inr ⟨rfl, rfl, rfl, rfl, rfl,
          Or.inr ⟨(Bool.not_eq_true _).mp hmode, rfl⟩⟩

/-- C17: on a state with unique ids, an accepted update of course `k`
rewrites the title and description of course `k` to the trimmed submitted
values and changes nothing else: every other course, the order, the length,
the ids, the `createdAt` of course `k` and the enrollment list stay; and an
accepted update of enrollment `k` rewrites only the courseId, name and email
of enrollment `k` and leaves the course list as it was. -/
theorem update_in_place (s : State) :
    (∀ (k : Int) (t d now : String), CourseIdsUnique s → s.editingCourseId = some k →
      courseUpdateMode s = true → (createOrUpdateCourse s t d now).rejected = false →
      (createOrUpdateCourse s t d now).state.courses
        = s.courses.map (fun c =>
            if c.id = k then { c with title := jsTrim t, desc := jsTrim d } else c) ∧
      (createOrUpdateCourse s t d now).state.courses.length = s.courses.length ∧
      (createOrUpdateCourse s t d now).state.courses.map (·.id) = s.courses.map (·.id) ∧
      (createOrUpdateCourse s t d now).state.enrollments = s.enrollments) ∧
    (∀ (k cid : Int) (n e now : String), EnrollIdsUnique s → s.editingEnrollId = some k →
      enrollUpdateMode s = true →
      (createOrUpdateEnrollment s (some cid) n e now).rejected = false →
      (createOrUpdateEnrollment s (some cid) n e now).state.enrollments
        = s.enrollments.map (fun x =>
            if x.id = k then { x with courseId := cid, name := jsTrim n, email := jsTrim e }
            else x) ∧
      (createOrUpdateEnrollment s (some cid) n e now).state.enrollments.length
        = s.enrollments.length ∧
      (createOrUpdateEnrollment s (some cid) n e now).state.enrollments.map (·.id)
        = s.enrollments.map (·.id) ∧
      (createOrUpdateEnrollment s (some cid) n e now).state.courses = s.courses) := by
  constructor
  · intro k t d now hu hk hmode hok
    rcases createOrUpdateCourse_commit s t d now with
      ⟨hr, _⟩ | ⟨_, _, _, hen, _, ⟨_, idx, hfi, hs⟩ | ⟨hm, _⟩⟩
    · rw [hr] at hok; exact Bool.noConfusion hok
    · rw [hk] at hfi
      have hmap := modifyAt_eq_map (fun c : Course => c.id)
        (setCourseFields (jsTrim t) (jsTrim d)) k s.courses idx hu hfi
      rw [hs]
      refine ⟨hmap, length_modifyAt _ _ _, map_modifyAt (fun c : Course => c.id)
        (setCourseFields (jsTrim t) (jsTrim d)) (fun _ => rfl) _ _, hen⟩
    · rw [hm] at hmode; exact Bool.noConfusion hmode
  · intro k cid n e now hu hk hmode hok
    rcases createOrUpdateEnrollment_cases s (some cid) n e now with
      ⟨hr, _⟩ | ⟨c, k', idx, hc, hk', _, hfi, _, _, hs⟩ | ⟨c, _, htr, _, _, _⟩
    · rw [hr] at hok; exact Bool.noConfusion hok
    · cases hc
      rw [hk] at hk'
      cases hk'
      have hmap := modifyAt_eq_map (fun x : Enrollment => x.id)
        (setEnrollFields cid (jsTrim n) (jsTrim e)) k s.enrollments idx hu hfi
      rw [hs]
      exact ⟨hmap, length_modifyAt _ _ _, map_modifyAt (fun x : Enrollment => x.id)
        (setEnrollFields cid (jsTrim n) (jsTrim e)) (fun _ => rfl) _ _,
        createOrUpdateEnrollment_courses s (some cid) n e now⟩
    · unfold enrollUpdateMode at hmode
      rw [htr] at hmode
      exact Bool.noConfusion hmode

/-- Witness of C17: the first of two courses is renamed. -/
theorem update_in_place_witness :
    (createOrUpdateCourse (editCourse twoCourses 1).state " Lean 4 " "Proofs and programs"
      "t9").state.courses
      = (editCourse twoCourses 1).state.courses.map (fun c =>
          if c.id = 1 then { c with title := jsTrim " Lean 4 ", desc := jsTrim "Proofs and programs" }
          else c) :=
  ((update_in_place (editCourse twoCourses 1).state).1 1 " Lean 4 " "Proofs and programs" "t9"
    (by unfold CourseIdsUnique; decide) (by decide) (by decide) (by decide)).1

/-! ## Insertion order -/

/-- C18: an accepted create leaves the previous list with the new record
appended as its last element; an accepted delete leaves the previous list
filtered by "id differs", a sublist of it, so the remaining records keep their
relative order. -/
theorem insertion_order (s : State) :
    (∀ (t d now : String), courseUpdateMode s = false →
      (createOrUpdateCourse s t d now).rejected = false →
      (createOrUpdateCourse s t d now).state.courses = s.courses ++ [newCourse s t d now]) ∧
    (∀ (cid : Int) (n e now : String), enrollUpdateMode s = false →
      (createOrUpdateEnrollment s (some cid) n e now).rejected = false →
      (createOrUpdateEnrollment s (some cid) n e now).state.enrollments
        = s.enrollments ++ [newEnrollment s cid n e now]) ∧
    (∀ (id : Int), (deleteCourse s id).rejected = false →
      (deleteCourse s id).state.courses = s.courses.filter (fun c => c.id != id) ∧
      (deleteCourse s id).state.courses.Sublist s.courses) ∧
    (∀ (id : Int), (deleteEnrollment s id).rejected = false →
      (deleteEnrollment s id).state.enrollments = s.enrollments.filter (fun e => e.id != id) ∧
      (deleteEnrollment s id).state.enrollments.Sublist s.enrollments) := by
  refine ⟨fun t d now hm hok => createOrUpdateCourse_create s t d now hm hok,
    fun cid n e now hm hok => createOrUpdateEnrollment_create s cid n e now hm hok,
    fun id hok => ?_, fun id hok => ?_⟩
  · have heq : (deleteCourse s id).state.courses = s.courses.filter (fun c => c.id != id) := by
      rw [deleteCourse_eq] at hok ⊢
      split
      · rename_i h; rw [if_pos h] at hok; exact Bool.noConfusion hok
      · rename_i h
        rw [if_neg h] at hok
        split
        · rename_i h2; rw [if_pos h2] at hok; exact Bool.noConfusion hok
        · rfl
    exact ⟨heq, by rw [heq]; exact List.filter_sublist _⟩
  · have heq : (deleteEnrollment s id).state.enrollments
        = s.enrollments.filter (fun e => e.id != id) := by
      rw [deleteEnrollment_eq] at hok ⊢
      split
      · rename_i h; rw [if_pos h] at hok; exact Bool.noConfusion hok
      · rfl
    exact ⟨heq, by rw [heq]; exact List.filter_sublist _⟩

/-- Witness of C18: deleting the first of two courses keeps the second, and
a third course goes to the end. -/
theorem insertion_order_witness :
    (deleteCourse twoCourses 1).state.courses = [⟨2, "Coq", "Tactics", "t1"⟩] ∧
    (createOrUpdateCourse twoCourses "Logic" "Sets and types" "t2").state.courses
      = twoCourses.courses ++ [newCourse twoCourses "Logic" "Sets and types" "t2"] := by
  have h1 := ((insertion_order twoCourses).2.2.1 1 (by decide)).1
  have h2 := (insertion_order twoCourses).1 "Logic" "Sets and types" "t2" (by decide) (by decide)
  exact ⟨by rw [h1]; decide, h2⟩

/-! ## Persistence round trip -/

theorem synced_of_saved (s : State)
    (h : s.localStorage = ⟨some s.courses, some s.enrollments⟩) : Synced s := by
  unfold Synced loadState
  rw [h]
  exact ⟨rfl, rfl⟩

theorem deleteCourse_commit (s : State) (id : Int) :
    ((deleteCourse s id).rejected = true ∧ (deleteCourse s id).state = s) ∨
    ((deleteCourse s id).rejected = false ∧
      (deleteCourse s id).state.localStorage
        = ⟨some (deleteCourse s id).state.courses, some (deleteCourse s id).state.enrollments⟩) := by
  rw [deleteCourse_eq]
  split
  · exact Or.inl ⟨rfl, rfl⟩
  · split
    · exact Or.inl ⟨rfl, rfl⟩
    · exact Or.inr ⟨rfl, rfl⟩

theorem deleteEnrollment_commit (s : State) (id : Int) :
    ((deleteEnrollment s id).rejected = true ∧ (deleteEnrollment s id).state = s) ∨
    ((deleteEnrollment s id).rejected = false ∧
      (deleteEnrollment s id).state.localStorage
        = ⟨some (deleteEnrollment s id).state.courses,
            some (deleteEnrollment s id).state.enrollments⟩) := by
  rw [deleteEnrollment_eq]
  split
  · exact Or.inl ⟨rfl, rfl⟩
  · exact Or.inr ⟨rfl, rfl⟩

/-- Every action keeps memory and storage in step. -/
theorem synced_step (s : State) (op : Op) (h : Synced s) : Synced (step s op) := by
  cases op with
  | createOrUpdateCourse t d now =>
    simp only [step]
    rcases createOrUpdateCourse_commit s t d now with ⟨_, hs⟩ | ⟨_, _, _, _, hst, _⟩
    · rw [hs]; exact h
    · exact synced_of_saved _ hst
  | editCourse id =>
    simp only [step]
    unfold editCourse
    split <;> exact h
  | deleteCourse id =>
    simp only [step]
    rcases deleteCourse_commit s id with ⟨_, hs⟩ | ⟨_, hst⟩
    · rw [hs]; exact h
    · exact synced_of_saved _ hst
  | resetCourseForm => exact h
  | createOrUpdateEnrollment c n e now =>
    simp only [step]
    rcases createOrUpdateEnrollment_commit s c n e now with ⟨_, hs⟩ | ⟨_, _, _, hst⟩
    · rw [hs]; exact h
    · exact synced_of_saved _ hst
  | editEnrollment id =>
    simp only [step]
    unfold editEnrollment
    split <;> exact h
  | deleteEnrollment id =>
    simp only [step]
    rcases deleteEnrollment_commit s id with ⟨_, hs⟩ | ⟨_, hst⟩
    · rw [hs]; exact h
    · exact synced_of_saved _ hst
  | resetEnrollForm => exact h

theorem synced_steps (ops : List Op) : ∀ s : State, Synced s → Synced (steps s ops) := by
  induction ops with
  | nil => intro s h; exact h
  | cons op ops ih =>
    intro s h
    exact ih (step s op) (synced_step s op h)

/-- C19: every accepted create, update or delete leaves under each storage
key the list that is in memory; hence after any sequence of actions on a state
loaded from storage, loading the two keys again gives the same course list and
the same enrollment list. -/
theorem persistence_round_trip :
    (∀ (s : State) (t d now : String), (createOrUpdateCourse s t d now).rejected = false →
      (createOrUpdateCourse s t d now).state.localStorage
        = ⟨some (createOrUpdateCourse s t d now).state.courses,
            some (createOrUpdateCourse s t d now).state.enrollments⟩) ∧
    (∀ (s : State) (id : Int), (deleteCourse s id).rejected = false →
      (deleteCourse s id).state.localStorage
        = ⟨some (deleteCourse s id).state.courses,
            some (deleteCourse s id).state.enrollments⟩) ∧
    (∀ (s : State) (c : Option Int) (n e now : String),
      (createOrUpdateEnrollment s c n e now).rejected = false →
      (createOrUpdateEnrollment s c n e now).state.localStorage
        = ⟨some (createOrUpdateEnrollment s c n e now).state.courses,
            some (createOrUpdateEnrollment s c n e now).state.enrollments⟩) ∧
    (∀ (s : State) (id : Int), (deleteEnrollment s id).rejected = false →
      (deleteEnrollment s id).state.localStorage
        = ⟨some (deleteEnrollment s id).state.courses,
            some (deleteEnrollment s id).state.enrollments⟩) ∧
    (∀ (st : Storage) (ops : List Op),
      (loadState (steps (loadState st) ops).localStorage).courses
        = (steps (loadState st) ops).courses ∧
      (loadState (steps (loadState st) ops).localStorage).enrollments
        = (steps (loadState st) ops).enrollments) := by
  refine ⟨fun s t d now hok => ?_, fun s id hok => ?_, fun s c n e now hok => ?_,
    fun s id hok => ?_, fun st ops => ?_⟩
  · rcases createOrUpdateCourse_commit s t d now with ⟨hr, _⟩ | ⟨_, _, _, _, hst, _⟩
    · rw [hr] at hok; exact Bool.noConfusion hok
    · exact hst
  · rcases deleteCourse_commit s id with ⟨hr, _⟩ | ⟨_, hst⟩
    · rw [hr] at hok; exact Bool.noConfusion hok
    · exact hst
  · rcases createOrUpdateEnrollment_commit s c n e now with ⟨hr, _⟩ | ⟨_, _, _, hst⟩
    · rw [hr] at hok; exact Bool.noConfusion hok
    · exact hst
  · rcases deleteEnrollment_commit s id with ⟨hr, _⟩ | ⟨_, hst⟩
    · rw [hr] at hok; exact Bool.noConfusion hok
    · exact hst
  · exact synced_steps ops (loadState st) ⟨rfl, rfl⟩

/-- Witness of C19: a session of five actions, one of them rejected, reloads
to the same two lists. -/
theorem persistence_round_trip_witness :
    (loadState (steps (loadState ⟨none, none⟩)
      [.createOrUpdateCourse "Lean" "Proofs" "t0", .createOrUpdateCourse "ab" "x" "t1",
        .createOrUpdateEnrollment (some 1) "Alice" "a@b.com" "t2", .editCourse 1,
        .createOrUpdateCourse "Lean 4" "Proofs and programs" "t3"]).localStorage).courses
      = [⟨1, "Lean 4", "Proofs and programs", "t0"⟩] := by
  rw [(persistence_round_trip.2.2.2.2 ⟨none, none⟩ _).1]
  decide

/-! ## Field constraints of the data model -/

theorem generateId_pos (ids : List Int) (h : ∀ i ∈ ids, 0 < i) : 0 < generateId ids := by
  cases ids with
  | nil => decide
  | cons x xs =>
    have h1 := foldl_max_ge_init xs x
    have h2 := h x (List.mem_cons_self _ _)
    simp only [generateId]
    exact roundToDouble_pos _ (by omega)

/-- An accepted course submission passed both length checks. -/
theorem createOrUpdateCourse_valid (s : State) (t d now : String)
    (h : (createOrUpdateCourse s t d now).rejected = false) :
    3 ≤ jsLength (jsTrim t) ∧ 5 ≤ jsLength (jsTrim d) := by
  have ht : 3 ≤ jsLength (jsTrim t) := by
    by_contra hlt
    have hr : createOrUpdateCourse s t d now = caught s msgCourseTitle := by
      unfold createOrUpdateCourse
      simp only []
      rw [if_pos (text_check_true (jsTrim t) 3 (Nat.lt_of_not_le hlt))]
    rw [hr] at h
    exact Bool.noConfusion h
  refine ⟨ht, ?_⟩
  by_contra hlt
  have hr : createOrUpdateCourse s t d now = caught s msgCourseDesc := by
    unfold createOrUpdateCourse
    simp only []
    have h1 : ¬ (jsTrim t == "" || decide (jsLength (jsTrim t) < 3)) = true := by
      rw [text_check_false (jsTrim t) 3 (by decide) ht]
      exact Bool.false_ne_true
    rw [if_neg h1, if_pos (text_check_true (jsTrim d) 5 (Nat.lt_of_not_le hlt))]
  rw [hr] at h
  exact Bool.noConfusion h

/-- C20: if every course has a positive id, a title of length at least 3 and a
description of length at least 5, and every enrollment has a positive id, a
name of length at least 3 and an email containing "@", then the same holds
after every operation on every input. -/
theorem fieldsValid_step (s : State) (op : Op) (h : FieldsValid s) :
    FieldsValid (step s op) := by
  obtain ⟨hc, he⟩ := h
  cases op with
  | createOrUpdateCourse t d now =>
    simp only [step]
    refine ⟨?_, by rw [(createOrUpdateCourse_frame s t d now).1]; exact he⟩
    rcases createOrUpdateCourse_cases s t d now with ⟨_, hs⟩ | ⟨k, idx, _, _, hok, hs⟩ | ⟨hok, hs⟩
    · rw [hs]; exact hc
    · obtain ⟨ht, hd⟩ := createOrUpdateCourse_valid s t d now hok
      rw [hs]
      intro c hmem
      rcases mem_modifyAt _ _ _ _ hmem with hold | ⟨b, hb, rfl⟩
      · exact hc c hold
      · exact ⟨(hc b hb).1, ht, hd⟩
    · obtain ⟨ht, hd⟩ := createOrUpdateCourse_valid s t d now hok
      rw [hs]
      intro c hmem
      rcases List.mem_append.mp hmem with hold | hnew
      · exact hc c hold
      · rw [List.mem_singleton] at hnew
        subst hnew
        refine ⟨generateId_pos _ ?_, ht, hd⟩
        intro i hi
        obtain ⟨b, hb, rfl⟩ := List.mem_map.mp hi
        exact (hc b hb).1
  | editCourse id =>
    simp only [step]
    exact ⟨by rw [(editCourse_frame s id).1]; exact hc,
      by rw [(editCourse_frame s id).2]; exact he⟩
  | deleteCourse id =>
    simp only [step]
    refine ⟨?_, by rw [(deleteCourse_frame s id).1]; exact he⟩
    rcases (deleteCourse_frame s id).2 with hs | ⟨_, hs⟩
    · rw [hs]; exact hc
    · rw [hs]
      intro c hmem
      exact hc c (List.mem_filter.mp hmem).1
  | resetCourseForm => exact ⟨hc, he⟩
  | createOrUpdateEnrollment c n e now =>
    simp only [step]
    refine ⟨by rw [createOrUpdateEnrollment_courses]; exact hc, ?_⟩
    rcases createOrUpdateEnrollment_cases s c n e now with
      ⟨_, hs⟩ | ⟨cid, k, idx, _, _, _, _, _, hok, hs⟩ | ⟨cid, _, _, _, hok, hs⟩
    · rw [hs]; exact he
    · obtain ⟨_, hn, hem⟩ := createOrUpdateEnrollment_valid s c n e now hok
      rw [hs]
      intro x hmem
      rcases mem_modifyAt _ _ _ _ hmem with hold | ⟨b, hb, rfl⟩
      · exact he x hold
      · exact ⟨(he b hb).1, hn, hem⟩
    · obtain ⟨_, hn, hem⟩ := createOrUpdateEnrollment_valid s c n e now hok
      rw [hs]
      intro x hmem
      rcases List.mem_append.mp hmem with hold | hnew
      · exact he x hold
      · rw [List.mem_singleton] at hnew
        subst hnew
        refine ⟨generateId_pos _ ?_, hn, hem⟩
        intro i hi
        obtain ⟨b, hb, rfl⟩ := List.mem_map.mp hi
        exact (he b hb).1
  | editEnrollment id =>
    simp only [step]
    exact ⟨by rw [(editEnrollment_frame s id).1]; exact hc,
      by rw [(editEnrollment_frame s id).2]; exact he⟩
  | deleteEnrollment id =>
    simp only [step]
    refine ⟨by rw [(deleteEnrollment_frame s id).1]; exact hc, ?_⟩
    rcases (deleteEnrollment_frame s id).2 with hs | hs
    · rw [hs]; exact he
    · rw [hs]
      intro x hmem
      exact he x (List.mem_filter.mp hmem).1
  | resetEnrollForm => exact ⟨hc, he⟩

/-- Witness of C20: a second student enrolls in the one-course session. -/
theorem fieldsValid_step_witness :
    FieldsValid oneEnrollment ∧
    FieldsValid (step oneEnrollment (.createOrUpdateEnrollment (some 1) "Bob" "b@c.com" "t2")) :=
  have h0 : FieldsValid oneEnrollment := by
    have h1 : oneEnrollment.courses = [⟨1, "Lean", "Proofs", "t0"⟩] := by decide
    have h2 : oneEnrollment.enrollments = [⟨1, 1, "Alice", "a@b.com", "t1"⟩] := by decide
    unfold FieldsValid
    rw [h1, h2]
    constructor
    · intro c hc
      rw [List.mem_singleton] at hc
      subst hc
      decide
    · intro e he
      rw [List.mem_singleton] at he
      subst he
      decide
  ⟨h0, fieldsValid_step oneEnrollment _ h0⟩

end Lab3
